import Mathlib

/-!
Verification development for the uevent router of
`device_fraunhofer_common_cml` (`daemon/uevent.c`).

The C code is shallowly embedded: the raw netlink buffer is a list of
bytes (`Bytes`), C strings are byte lists terminated implicitly by the
first 0 byte in the buffer, the `struct uevent` view is a Lean structure
whose string members are offsets into the owning buffer (mirroring the C
pointers-into-`raw` representation), and module-level state (the two
routing tables, the rename counters, the physical-NIC list) is passed
explicitly.  External collaborators (container registry, cgroup policy,
token subsystem, network helpers, sysfs) are parameters/oracles, and the
side effects the daemon performs through them are collected in an
explicit trace.
-/

/-- Raw buffer contents: one `Nat` per byte (values < 256 in practice; the
embedding never relies on the bound). -/
abbrev Bytes := List Nat

/-- Reading byte `i` of a buffer. Out-of-range reads yield 0, matching the
zero-filled tail of a `mem_new0`-allocated `UEVENT_BUF_LEN` buffer. -/
def byteAt (raw : Bytes) (i : Nat) : Nat := raw.getD i 0

/-- The C string starting at offset `p` of the buffer: bytes up to (not
including) the first 0 byte. -/
def cstrAt (raw : Bytes) (p : Nat) : Bytes := (raw.drop p).takeWhile (fun b => b != 0)

/-- Character-class test used by `atoi`: C `isspace`. -/
def isSpaceB (b : Nat) : Bool := b == 32 || b == 9 || b == 10 || b == 11 || b == 12 || b == 13

/-- Drop leading whitespace, as the C number parsers do. -/
def skipSpaces : Bytes → Bytes
  | [] => []
  | b :: t => if isSpaceB b then skipSpaces t else b :: t

/-- Accumulate leading decimal digits onto `acc`; stops at the first
non-digit (this is how `atoi` consumes its input). -/
def decAccum : Bytes → Nat → Nat
  | [], acc => acc
  | b :: t, acc => if 48 ≤ b ∧ b ≤ 57 then decAccum t (acc * 10 + (b - 48)) else acc

/-- C `atoi` on a byte string: optional whitespace, optional sign, leading
decimal digits, 0 when no digits.  (The C int is 32-bit and overflow is
undefined; the uevent MAJOR/MINOR values are far below that, so the
unbounded `Int` is used.) -/
def atoiB (s : Bytes) : Int :=
  match skipSpaces s with
  | 45 :: t => - (decAccum t 0 : Int)
  | 43 :: t => (decAccum t 0 : Int)
  | t => (decAccum t 0 : Int)

/-- Value of an ASCII hex digit, `none` for a non-hex-digit byte. -/
def hexDigitVal (b : Nat) : Option Nat :=
  if 48 ≤ b ∧ b ≤ 57 then some (b - 48)
  else if 97 ≤ b ∧ b ≤ 102 then some (b - 87)
  else if 65 ≤ b ∧ b ≤ 70 then some (b - 55)
  else none

/-- Accumulate leading hex digits; returns the value and the rest. -/
def hexAccum : Bytes → Nat → Nat × Bytes
  | [], acc => (acc, [])
  | b :: t, acc =>
    match hexDigitVal b with
    | some d => hexAccum t (acc * 16 + d)
    | none => (acc, b :: t)

/-- One `%hx` conversion of `sscanf`: skip whitespace, require at least one
hex digit, value taken mod 2^16 (`unsigned short`), and return the
unconsumed rest.  `none` models a failed conversion, in which case
`sscanf` leaves the output variable untouched.  (The `0x` prefix and sign
forms accepted by `strtoul` never occur in uevent property values and are
not modelled.) -/
def scanHex16 (s : Bytes) : Option (Nat × Bytes) :=
  match skipSpaces s with
  | [] => none
  | b :: t =>
    match hexDigitVal b with
    | some d =>
      let r := hexAccum t d
      some (r.1 % 65536, r.2)
    | none => none

/-- The recognized uevent properties, in the order of the `if`/`else if`
chain of `uevent_parse`. -/
inductive UField
  | action | devpath | subsystem | major | minor | devname | devtype
  | driver | product | id_vendor_id | id_model_id | id_serial_short
  | interface | synth_uuid
deriving DecidableEq, Repr

/-- The `KEY=` byte prefix each branch of `uevent_parse` matches with
`strncmp` (the byte lists spell ACTION=, DEVPATH=, SUBSYSTEM=, MAJOR=,
MINOR=, DEVNAME=, DEVTYPE=, DRIVER=, PRODUCT=, ID_VENDOR_ID=,
ID_MODEL_ID=, ID_SERIAL_SHORT=, INTERFACE=, SYNTH_UUID= in ASCII). -/
def fieldKey : UField → Bytes
  | .action => [65,67,84,73,79,78,61]
  | .devpath => [68,69,86,80,65,84,72,61]
  | .subsystem => [83,85,66,83,89,83,84,69,77,61]
  | .major => [77,65,74,79,82,61]
  | .minor => [77,73,78,79,82,61]
  | .devname => [68,69,86,78,65,77,69,61]
  | .devtype => [68,69,86,84,89,80,69,61]
  | .driver => [68,82,73,86,69,82,61]
  | .product => [80,82,79,68,85,67,84,61]
  | .id_vendor_id => [73,68,95,86,69,78,68,79,82,95,73,68,61]
  | .id_model_id => [73,68,95,77,79,68,69,76,95,73,68,61]
  | .id_serial_short => [73,68,95,83,69,82,73,65,76,95,83,72,79,82,84,61]
  | .interface => [73,78,84,69,82,70,65,67,69,61]
  | .synth_uuid => [83,89,78,84,72,95,85,85,73,68,61]

/-- Which branch of the `uevent_parse` chain fires for the entry `e`
(the NUL-terminated `KEY=VALUE` string): the first recognized prefix, or
`none`.  `strncmp(raw_p, "KEY=", k) == 0` is exactly a byte-prefix test
because the pattern contains no NUL. -/
def branchOf (e : Bytes) : Option UField :=
  if (fieldKey .action).isPrefixOf e then some .action
  else if (fieldKey .devpath).isPrefixOf e then some .devpath
  else if (fieldKey .subsystem).isPrefixOf e then some .subsystem
  else if (fieldKey .major).isPrefixOf e then some .major
  else if (fieldKey .minor).isPrefixOf e then some .minor
  else if (fieldKey .devname).isPrefixOf e then some .devname
  else if (fieldKey .devtype).isPrefixOf e then some .devtype
  else if (fieldKey .driver).isPrefixOf e then some .driver
  else if (fieldKey .product).isPrefixOf e then some .product
  else if (fieldKey .id_vendor_id).isPrefixOf e then some .id_vendor_id
  else if (fieldKey .id_model_id).isPrefixOf e then some .id_model_id
  else if (fieldKey .id_serial_short).isPrefixOf e then some .id_serial_short
  else if (fieldKey .interface).isPrefixOf e then some .interface
  else if (fieldKey .synth_uuid).isPrefixOf e then some .synth_uuid
  else none

/-- The `struct uevent` view: each string member is the offset into the
owning raw buffer where the C pointer points (`some p`), or `none` for the
static `""` literal the parser installs as default.  `major`/`minor` are C
`int`s, the two ids C `uint16_t`s.  `driver` is a member of the C struct
that `uevent_parse` never defaults — it keeps whatever was in the struct
before the call. -/
structure Uevent where
  action : Option Nat := none
  devpath : Option Nat := none
  subsystem : Option Nat := none
  devname : Option Nat := none
  devtype : Option Nat := none
  driver : Option Nat := none
  product : Option Nat := none
  id_serial_short : Option Nat := none
  interface : Option Nat := none
  synth_uuid : Option Nat := none
  major : Int := 0
  minor : Int := 0
  id_vendor_id : Nat := 0
  id_model_id : Nat := 0
deriving DecidableEq, Repr

/-- Dereference a string member: the C string the stored pointer points
to, with the `none` default denoting the static `""`. -/
def ustr (raw : Bytes) : Option Nat → Bytes
  | none => []
  | some p => cstrAt raw p

/-- The member defaults `uevent_parse` installs before scanning.  Exactly
the assignments at the top of the C function: everything is reset except
`driver`. -/
def uevent_defaults (u : Uevent) : Uevent :=
  { u with
    action := none, devpath := none, devname := none, devtype := none,
    major := -1, minor := -1, subsystem := none, product := none,
    id_model_id := 0, id_vendor_id := 0, id_serial_short := none,
    interface := none, synth_uuid := none }

/-- Effect of one loop iteration of `uevent_parse` on the view, for the
entry starting at offset `p` of `raw`: the branch that fires stores the
pointer `raw_p + k` (offset `p + k`) for string members, or parses the
number for `major`/`minor` (`atoi`) and the two ids (`sscanf %hx`, which
leaves the member untouched when the conversion fails). -/
def applyEntry (raw : Bytes) (u : Uevent) (p : Nat) : Uevent :=
  match branchOf (cstrAt raw p) with
  | some .action => { u with action := some (p + 7) }
  | some .devpath => { u with devpath := some (p + 8) }
  | some .subsystem => { u with subsystem := some (p + 10) }
  | some .major => { u with major := atoiB (cstrAt raw (p + 6)) }
  | some .minor => { u with minor := atoiB (cstrAt raw (p + 6)) }
  | some .devname => { u with devname := some (p + 8) }
  | some .devtype => { u with devtype := some (p + 8) }
  | some .driver => { u with driver := some (p + 7) }
  | some .product => { u with product := some (p + 8) }
  | some .id_vendor_id =>
    { u with id_vendor_id := ((scanHex16 (cstrAt raw (p + 13))).map Prod.fst).getD u.id_vendor_id }
  | some .id_model_id =>
    { u with id_model_id := ((scanHex16 (cstrAt raw (p + 12))).map Prod.fst).getD u.id_model_id }
  | some .id_serial_short => { u with id_serial_short := some (p + 16) }
  | some .interface => { u with interface := some (p + 10) }
  | some .synth_uuid => { u with synth_uuid := some (p + 11) }
  | none => u

/-- The scan loop of `uevent_parse`: stop on a 0 byte, otherwise process
the entry, advance past its terminating NUL, and stop once the advanced
pointer reaches `msg_len`.  Structural recursion on a fuel that the
wrapper sets high enough (each iteration advances the offset by at least
one and the loop stops at `msg_len`). -/
def parseLoop : Nat → Bytes → Nat → Uevent → Nat → Uevent
  | 0, _, _, u, _ => u
  | fuel + 1, raw, msg_len, u, p =>
    if byteAt raw p == 0 then u
    else
      let e := cstrAt raw p
      let u' := applyEntry raw u p
      let p' := p + e.length + 1
      if msg_len ≤ p' then u' else parseLoop fuel raw msg_len u' p'

/-- `uevent_parse(uevent, raw_p)`: reset the members, then scan from
`raw_p` (offset `p`).  `raw` is the raw buffer of the owning uevent,
`msg_len` its length field. -/
def uevent_parse (raw : Bytes) (msg_len : Nat) (u : Uevent) (p : Nat) : Uevent :=
  parseLoop (msg_len + 1) raw msg_len (uevent_defaults u) p

/-- Value-level view of a parsed uevent: every string member dereferenced
to the byte string it points at.  This is the observable content of a
`struct uevent` (what all consumers of the view read through the
pointers). -/
structure UView where
  action : Bytes := []
  devpath : Bytes := []
  subsystem : Bytes := []
  devname : Bytes := []
  devtype : Bytes := []
  driver : Bytes := []
  product : Bytes := []
  id_serial_short : Bytes := []
  interface : Bytes := []
  synth_uuid : Bytes := []
  major : Int := 0
  minor : Int := 0
  id_vendor_id : Nat := 0
  id_model_id : Nat := 0
deriving DecidableEq, Repr

/-- Dereference all members of a view against its owning buffer. -/
def viewOf (raw : Bytes) (u : Uevent) : UView :=
  { action := ustr raw u.action, devpath := ustr raw u.devpath,
    subsystem := ustr raw u.subsystem, devname := ustr raw u.devname,
    devtype := ustr raw u.devtype, driver := ustr raw u.driver,
    product := ustr raw u.product, id_serial_short := ustr raw u.id_serial_short,
    interface := ustr raw u.interface, synth_uuid := ustr raw u.synth_uuid,
    major := u.major, minor := u.minor,
    id_vendor_id := u.id_vendor_id, id_model_id := u.id_model_id }

/-- Value-level effect of one `uevent_parse` iteration on the entry `e`:
identical to `applyEntry` with the stored pointer dereferenced (the value
of entry `KEY=VALUE` is the byte string after the key prefix). -/
def applyEntryV (v : UView) (e : Bytes) : UView :=
  match branchOf e with
  | some .action => { v with action := e.drop 7 }
  | some .devpath => { v with devpath := e.drop 8 }
  | some .subsystem => { v with subsystem := e.drop 10 }
  | some .major => { v with major := atoiB (e.drop 6) }
  | some .minor => { v with minor := atoiB (e.drop 6) }
  | some .devname => { v with devname := e.drop 8 }
  | some .devtype => { v with devtype := e.drop 8 }
  | some .driver => { v with driver := e.drop 7 }
  | some .product => { v with product := e.drop 8 }
  | some .id_vendor_id =>
    { v with id_vendor_id := ((scanHex16 (e.drop 13)).map Prod.fst).getD v.id_vendor_id }
  | some .id_model_id =>
    { v with id_model_id := ((scanHex16 (e.drop 12)).map Prod.fst).getD v.id_model_id }
  | some .id_serial_short => { v with id_serial_short := e.drop 16 }
  | some .interface => { v with interface := e.drop 10 }
  | some .synth_uuid => { v with synth_uuid := e.drop 11 }
  | none => v

/-- Folding the per-entry effect over a property stream. -/
def foldEntries (v : UView) (es : List Bytes) : UView := es.foldl applyEntryV v


/-- NUL-separated encoding of a property stream: each entry followed by
its terminating 0 byte. -/
def encodeEntries (es : List Bytes) : Bytes := es.foldr (fun e acc => e ++ 0 :: acc) []

/-- A well-formed property entry: nonempty and free of interior NULs (the
kernel and udev streams satisfy this by construction). -/
def goodE (e : Bytes) : Prop := e ≠ [] ∧ (0 : Nat) ∉ e

instance (e : Bytes) : Decidable (goodE e) := by unfold goodE; infer_instance

theorem byteAt_eq_head (raw : Bytes) (i : Nat) :
    byteAt raw i = ((raw.drop i).head?).getD 0 := by
  simp [byteAt, List.getD_eq_getElem?_getD, List.head?_eq_getElem?, List.getElem?_drop]

theorem dropAppendLe (l₁ l₂ : Bytes) (k : Nat) (h : k ≤ l₁.length) :
    (l₁ ++ l₂).drop k = l₁.drop k ++ l₂ := by
  conv_lhs => rw [← List.take_append_drop k l₁, List.append_assoc]
  rw [List.drop_left' (by simp [Nat.min_eq_left h])]

theorem takeWhile_append_stop (l₁ l₂ : Bytes) (h : (0 : Nat) ∉ l₁)
    (h₂ : l₂.head? = none ∨ l₂.head? = some 0) :
    (l₁ ++ l₂).takeWhile (fun b => b != 0) = l₁ := by
  induction l₁ with
  | nil =>
    simp only [List.nil_append]
    cases l₂ with
    | nil => rfl
    | cons b t =>
      rcases h₂ with h₂ | h₂
      · simp at h₂
      · simp only [List.head?_cons, Option.some.injEq] at h₂
        subst h₂
        simp [List.takeWhile_cons]
  | cons a l ih =>
    rw [List.mem_cons] at h
    push_neg at h
    obtain ⟨h1, h2⟩ := h
    have ha : ((a : Nat) != 0) = true := by simp [bne_iff_ne]; omega
    simp only [List.cons_append, List.takeWhile_cons, ha, if_true]
    rw [ih h2]

theorem cstrAt_encode (pre e t : Bytes) (he : (0 : Nat) ∉ e) :
    cstrAt (pre ++ (e ++ 0 :: t)) pre.length = e := by
  unfold cstrAt
  rw [List.drop_left]
  exact takeWhile_append_stop e (0 :: t) he (Or.inr rfl)

theorem cstrAt_add (raw : Bytes) (p k : Nat) (hk : k ≤ (cstrAt raw p).length) :
    cstrAt raw (p + k) = (cstrAt raw p).drop k := by
  unfold cstrAt at *
  rw [← List.drop_drop]
  conv_lhs =>
    rw [← List.takeWhile_append_dropWhile (fun b => b != 0) (raw.drop p)]
  rw [dropAppendLe _ _ _ hk]
  apply takeWhile_append_stop
  · intro hm
    have hmem := List.mem_of_mem_drop hm
    have := List.mem_takeWhile_imp hmem
    simp at this
  · have h3 := List.head?_dropWhile_not (fun b => b != 0) (raw.drop p)
    cases hh : ((raw.drop p).dropWhile (fun b => b != 0)).head? with
    | none => exact Or.inl rfl
    | some b =>
      rw [hh] at h3
      have hb0 : b = 0 := by simpa using h3
      right
      simp [hb0]

theorem ite_some_step {c : Prop} [Decidable c] {x f : UField} {r : Option UField}
    (h : (if c then some x else r) = some f) : (c ∧ x = f) ∨ r = some f := by
  by_cases hc : c
  · left
    exact ⟨hc, by simpa [hc] using h⟩
  · right
    simpa [hc] using h

theorem branch_key_isPrefix (e : Bytes) (f : UField) (hb : branchOf e = some f) :
    (fieldKey f).isPrefixOf e := by
  unfold branchOf at hb
  rcases ite_some_step hb with ⟨hc, rfl⟩ | hb; · exact hc
  rcases ite_some_step hb with ⟨hc, rfl⟩ | hb; · exact hc
  rcases ite_some_step hb with ⟨hc, rfl⟩ | hb; · exact hc
  rcases ite_some_step hb with ⟨hc, rfl⟩ | hb; · exact hc
  rcases ite_some_step hb with ⟨hc, rfl⟩ | hb; · exact hc
  rcases ite_some_step hb with ⟨hc, rfl⟩ | hb; · exact hc
  rcases ite_some_step hb with ⟨hc, rfl⟩ | hb; · exact hc
  rcases ite_some_step hb with ⟨hc, rfl⟩ | hb; · exact hc
  rcases ite_some_step hb with ⟨hc, rfl⟩ | hb; · exact hc
  rcases ite_some_step hb with ⟨hc, rfl⟩ | hb; · exact hc
  rcases ite_some_step hb with ⟨hc, rfl⟩ | hb; · exact hc
  rcases ite_some_step hb with ⟨hc, rfl⟩ | hb; · exact hc
  rcases ite_some_step hb with ⟨hc, rfl⟩ | hb; · exact hc
  rcases ite_some_step hb with ⟨hc, rfl⟩ | hb; · exact hc
  exact Option.noConfusion hb

theorem viewOf_applyEntry (raw : Bytes) (u : Uevent) (p : Nat) (e : Bytes)
    (he : cstrAt raw p = e) :
    viewOf raw (applyEntry raw u p) = applyEntryV (viewOf raw u) e := by
  have hval : ∀ k, k ≤ e.length → cstrAt raw (p + k) = e.drop k := by
    intro k hk
    rw [cstrAt_add raw p k (by rw [he]; exact hk), he]
  unfold applyEntry applyEntryV
  rw [he]
  cases hb : branchOf e with
  | none => rfl
  | some f =>
    have hlen : (fieldKey f).length ≤ e.length :=
      (List.isPrefixOf_iff_prefix.mp (branch_key_isPrefix e f hb)).length_le
    cases f
    case action => simp [viewOf, ustr, hval 7 (by simpa [fieldKey] using hlen)]
    case devpath => simp [viewOf, ustr, hval 8 (by simpa [fieldKey] using hlen)]
    case subsystem => simp [viewOf, ustr, hval 10 (by simpa [fieldKey] using hlen)]
    case major => simp [viewOf, ustr, hval 6 (by simpa [fieldKey] using hlen)]
    case minor => simp [viewOf, ustr, hval 6 (by simpa [fieldKey] using hlen)]
    case devname => simp [viewOf, ustr, hval 8 (by simpa [fieldKey] using hlen)]
    case devtype => simp [viewOf, ustr, hval 8 (by simpa [fieldKey] using hlen)]
    case driver => simp [viewOf, ustr, hval 7 (by simpa [fieldKey] using hlen)]
    case product => simp [viewOf, ustr, hval 8 (by simpa [fieldKey] using hlen)]
    case id_vendor_id => simp [viewOf, ustr, hval 13 (by simpa [fieldKey] using hlen)]
    case id_model_id => simp [viewOf, ustr, hval 12 (by simpa [fieldKey] using hlen)]
    case id_serial_short => simp [viewOf, ustr, hval 16 (by simpa [fieldKey] using hlen)]
    case interface => simp [viewOf, ustr, hval 10 (by simpa [fieldKey] using hlen)]
    case synth_uuid => simp [viewOf, ustr, hval 11 (by simpa [fieldKey] using hlen)]

theorem foldEntries_cons (v : UView) (e : Bytes) (es : List Bytes) :
    foldEntries v (e :: es) = foldEntries (applyEntryV v e) es := rfl

theorem encodeEntries_cons (e : Bytes) (es : List Bytes) :
    encodeEntries (e :: es) = e ++ 0 :: encodeEntries es := rfl

/-- The scan loop of `uevent_parse`, run over a buffer whose tail from
`pre.length` on is an encoded well-formed property stream, computes
exactly the left fold of the per-entry view effect over the stream. -/
theorem parseLoop_encode (es : List Bytes) :
    ∀ (fuel : Nat) (pre : Bytes) (u : Uevent) (raw : Bytes),
      raw = pre ++ encodeEntries es →
      es.length < fuel →
      (∀ e ∈ es, goodE e) →
      viewOf raw (parseLoop fuel raw raw.length u pre.length) = foldEntries (viewOf raw u) es := by
  induction es with
  | nil =>
    intro fuel pre u raw hraw hfuel _
    subst hraw
    obtain ⟨f, rfl⟩ := Nat.exists_eq_succ_of_ne_zero (by omega : fuel ≠ 0)
    have hb : byteAt (pre ++ encodeEntries []) pre.length = 0 := by
      rw [byteAt_eq_head]
      simp [encodeEntries]
    simp [parseLoop, hb, foldEntries]
  | cons e rest ih =>
    intro fuel pre u raw hraw hfuel hgood
    obtain ⟨f, rfl⟩ := Nat.exists_eq_succ_of_ne_zero (by omega : fuel ≠ 0)
    obtain ⟨hne, hnmem⟩ := hgood e (List.mem_cons_self e rest)
    have hcs : cstrAt raw pre.length = e := by
      rw [hraw, encodeEntries_cons]
      exact cstrAt_encode pre e (encodeEntries rest) hnmem
    have hbeq : (byteAt raw pre.length == 0) = false := by
      cases e with
      | nil => exact absurd rfl hne
      | cons a e' =>
        have ha : byteAt raw pre.length = a := by
          rw [byteAt_eq_head, hraw, encodeEntries_cons, List.drop_left]
          rfl
        rw [ha]
        simp only [beq_eq_false_iff_ne, ne_eq]
        intro h0
        subst h0
        exact hnmem (List.mem_cons_self 0 e')
    have hlen : raw.length = pre.length + e.length + 1 + (encodeEntries rest).length := by
      rw [hraw, encodeEntries_cons]
      simp
      omega
    have hview : viewOf raw (applyEntry raw u pre.length) = applyEntryV (viewOf raw u) e :=
      viewOf_applyEntry raw u pre.length e hcs
    cases rest with
    | nil =>
      have hstop : raw.length ≤ pre.length + (cstrAt raw pre.length).length + 1 := by
        rw [hcs]
        simp [encodeEntries] at hlen
        omega
      simp only [parseLoop, hbeq, Bool.false_eq_true, if_false, if_pos hstop]
      rw [hview]
      rfl
    | cons r rs =>
      have hgo : ¬ raw.length ≤ pre.length + (cstrAt raw pre.length).length + 1 := by
        rw [hcs]
        have : 1 ≤ (encodeEntries (r :: rs)).length := by
          rw [encodeEntries_cons]
          simp
          omega
        omega
      simp only [parseLoop, hbeq, Bool.false_eq_true, if_false, if_neg hgo]
      rw [hcs]
      have hpre' : raw = (pre ++ (e ++ [0])) ++ encodeEntries (r :: rs) := by
        rw [hraw, encodeEntries_cons]
        simp
      have hplen : pre.length + e.length + 1 = (pre ++ (e ++ [0])).length := by
        simp
        omega
      rw [hplen]
      rw [ih f (pre ++ (e ++ [0])) (applyEntry raw u pre.length) raw hpre'
          (by simp at hfuel ⊢; omega)
          (fun x hx => hgood x (List.mem_cons_of_mem e hx))]
      rw [hview]
      rfl

theorem encodeEntries_length_ge (es : List Bytes) : es.length ≤ (encodeEntries es).length := by
  induction es with
  | nil => simp [encodeEntries]
  | cons e rest ih =>
    rw [encodeEntries_cons]
    simp
    omega

/-- `uevent_parse` started at the encoded property stream: the observable
view (all pointers dereferenced) is the fold of the entries over the
defaulted struct. -/
theorem uevent_parse_encode (pre : Bytes) (es : List Bytes) (u : Uevent) (raw : Bytes)
    (hraw : raw = pre ++ encodeEntries es) (hgood : ∀ e ∈ es, goodE e) :
    viewOf raw (uevent_parse raw raw.length u pre.length)
      = foldEntries (viewOf raw (uevent_defaults u)) es := by
  unfold uevent_parse
  apply parseLoop_encode es (raw.length + 1) pre (uevent_defaults u) raw hraw ?_ hgood
  have h1 := encodeEntries_length_ge es
  have h2 : raw.length = pre.length + (encodeEntries es).length := by
    rw [hraw]
    simp
  omega

/-- A member value: string, C int, or C unsigned short. -/
inductive UVal
  | s (b : Bytes)
  | z (n : Int)
  | w (n : Nat)
deriving DecidableEq, Repr

/-- Project one member out of a value-level view. -/
def fieldV : UField → UView → UVal
  | .action, v => .s v.action
  | .devpath, v => .s v.devpath
  | .subsystem, v => .s v.subsystem
  | .major, v => .z v.major
  | .minor, v => .z v.minor
  | .devname, v => .s v.devname
  | .devtype, v => .s v.devtype
  | .driver, v => .s v.driver
  | .product, v => .s v.product
  | .id_vendor_id, v => .w v.id_vendor_id
  | .id_model_id, v => .w v.id_model_id
  | .id_serial_short, v => .s v.id_serial_short
  | .interface, v => .s v.interface
  | .synth_uuid, v => .s v.synth_uuid

theorem applyEntryV_other (v : UView) (e : Bytes) (g : UField) (hg : branchOf e ≠ some g) :
    fieldV g (applyEntryV v e) = fieldV g v := by
  unfold applyEntryV
  cases hb : branchOf e with
  | none => rfl
  | some f =>
    have hfg : f ≠ g := fun h => hg (h ▸ hb)
    cases f <;> cases g <;> simp_all [fieldV]

theorem applyEntryV_congr (v w : UView) (e : Bytes) (S : UField → Prop)
    (hvw : ∀ g, ¬ S g → fieldV g v = fieldV g w) :
    ∀ g, ¬ S g → fieldV g (applyEntryV v e) = fieldV g (applyEntryV w e) := by
  intro g hgS
  cases hb : branchOf e with
  | none =>
    unfold applyEntryV
    rw [hb]
    exact hvw g hgS
  | some f =>
    by_cases hfg : f = g
    · subst hfg
      have hval := hvw f hgS
      unfold applyEntryV
      rw [hb]
      cases f <;> simp_all [fieldV]
    · have hbn : branchOf e ≠ some g := by
        rw [hb]
        simp [hfg]
      rw [applyEntryV_other v e g hbn, applyEntryV_other w e g hbn]
      exact hvw g hgS

theorem foldEntries_not_branch (es : List Bytes) (g : UField) :
    ∀ v, (∀ e ∈ es, branchOf e ≠ some g) → fieldV g (foldEntries v es) = fieldV g v := by
  induction es with
  | nil =>
    intro v _
    rfl
  | cons e rest ih =>
    intro v h
    rw [foldEntries_cons, ih _ (fun x hx => h x (List.mem_cons_of_mem e hx))]
    exact applyEntryV_other v e g (h e (List.mem_cons_self e rest))

theorem foldEntries_congr (es : List Bytes) (S : UField → Prop) :
    ∀ (v w : UView), (∀ g, ¬ S g → fieldV g v = fieldV g w) →
      ∀ g, ¬ S g → fieldV g (foldEntries v es) = fieldV g (foldEntries w es) := by
  induction es with
  | nil =>
    intro v w h g hg
    exact h g hg
  | cons e rest ih =>
    intro v w h g hg
    rw [foldEntries_cons, foldEntries_cons]
    exact ih _ _ (applyEntryV_congr v w e S h) g hg

/-- String-valued members (the ones `uevent_parse` stores as pointers). -/
def isStringF : UField → Bool
  | .major => false
  | .minor => false
  | .id_vendor_id => false
  | .id_model_id => false
  | _ => true

theorem applyEntryV_value (v : UView) (e : Bytes) (f : UField) (hb : branchOf e = some f)
    (hstr : isStringF f = true) :
    fieldV f (applyEntryV v e) = .s (e.drop (fieldKey f).length) := by
  unfold applyEntryV
  rw [hb]
  cases f <;> simp_all [fieldV, fieldKey, isStringF]

/-- A uevent frame: the first `msg_len` bytes of the owned raw buffer.
`raw.length` plays the role of the C `msg_len` member; the remainder of
the 8 KiB buffer is not part of the message. -/
structure UFrame where
  raw : Bytes
deriving DecidableEq, Repr

/-- Net effect of `uevent_replace_member` on the raw bytes: the bytes
before the old member, then the new member with its terminating NUL, then
the bytes after the old member's NUL.  (`off` is `oldmember - msg.raw`,
`oldLen` is `strlen(oldmember)`.)  `replaceWrites_eq_spliceBytes` below
certifies this against a step-by-step model of the C function's five
stores. -/
def spliceBytes (raw : Bytes) (off oldLen : Nat) (newBytes : Bytes) : Bytes :=
  raw.take off ++ ((newBytes ++ [0]) ++ raw.drop (off + oldLen + 1))

/-- Write `src` into buffer `buf` at offset `off` (a C `memcpy`; `strcpy`
is `memcpy` of the source bytes plus the terminating NUL). -/
def bufWrite (buf : Nat → Nat) (off : Nat) (src : Bytes) : Nat → Nat :=
  fun i => if off ≤ i ∧ i < off + src.length then src.getD (i - off) 0 else buf i

/-- Little-endian byte representation of a 32-bit value: the in-memory
layout of the C `unsigned int` header members on the little-endian
targets the daemon runs on. -/
def u32le (n : Nat) : Bytes := [n % 256, n / 256 % 256, n / 65536 % 256, n / 16777216 % 256]

/-- Read a 32-bit little-endian value out of a buffer. -/
def readU32le (raw : Bytes) (off : Nat) : Nat :=
  byteAt raw off + 256 * byteAt raw (off + 1) + 65536 * byteAt raw (off + 2) +
    16777216 * byteAt raw (off + 3)

/-- Step-faithful model of the five stores `uevent_replace_member`
performs into the fresh `mem_new` allocation (whose uninitialized
contents are `junk`):
1. `memcpy` of the 40-byte `udev_monitor_netlink_header`;
2. the store `newevent->msg.nlh.properties_len = old + diff_len`
   (the `properties_len` member lives at byte offset 20 of the header,
   after `prefix[8]`, `magic`, `header_size` and `properties_off`);
3. `memcpy` of the bytes before the old member;
4. `strcpy` of the new member;
5. `memcpy` of the bytes after the old member's NUL.
`msg.nlh` and `msg.raw` are members of one union, so all five stores hit
the same byte array. -/
def replaceWrites (raw : Bytes) (off oldLen : Nat) (newBytes : Bytes) (junk : Nat → Nat) : Nat → Nat :=
  let propLenNew := (readU32le raw 20 + newBytes.length + 4294967296 - oldLen % 4294967296) % 4294967296
  let b1 := bufWrite junk 0 ((List.range 40).map (byteAt raw))
  let b2 := bufWrite b1 20 (u32le propLenNew)
  let b3 := bufWrite b2 0 (raw.take off)
  let b4 := bufWrite b3 off (newBytes ++ [0])
  bufWrite b4 (off + newBytes.length + 1) (raw.drop (off + oldLen + 1))

theorem spliceBytes_length (raw : Bytes) (off oldLen : Nat) (newBytes : Bytes)
    (hoff : off + oldLen + 1 ≤ raw.length) :
    (spliceBytes raw off oldLen newBytes).length = raw.length + newBytes.length - oldLen := by
  unfold spliceBytes
  simp
  omega

theorem replaceWrites_byte (raw : Bytes) (off oldLen : Nat) (newBytes : Bytes) (junk : Nat → Nat)
    (hoff : off + oldLen + 1 ≤ raw.length) (i : Nat)
    (hi : i < raw.length + newBytes.length - oldLen) :
    replaceWrites raw off oldLen newBytes junk i
      = (spliceBytes raw off oldLen newBytes).getD i 0 := by
  have htake : (raw.take off).length = off := by
    simp
    omega
  have hdl : (raw.drop (off + oldLen + 1)).length = raw.length - (off + oldLen + 1) := by
    simp
  have hnl : (newBytes ++ [0]).length = newBytes.length + 1 := by
    simp
  unfold replaceWrites bufWrite spliceBytes
  by_cases h5 : off + newBytes.length + 1 ≤ i ∧
      i < off + newBytes.length + 1 + (raw.drop (off + oldLen + 1)).length
  · rw [if_pos h5]
    rw [hdl] at h5
    rw [List.getD_append_right (raw.take off) ((newBytes ++ [0]) ++ raw.drop (off + oldLen + 1))
        0 i (by rw [htake]; omega)]
    rw [htake]
    rw [List.getD_append_right (newBytes ++ [0]) (raw.drop (off + oldLen + 1))
        0 (i - off) (by rw [hnl]; omega)]
    rw [hnl]
    congr 1
    omega
  · rw [if_neg h5]
    rw [hdl] at h5
    by_cases h4 : off ≤ i ∧ i < off + (newBytes ++ [0]).length
    · rw [if_pos h4]
      rw [hnl] at h4
      rw [List.getD_append_right (raw.take off) ((newBytes ++ [0]) ++ raw.drop (off + oldLen + 1))
          0 i (by rw [htake]; omega)]
      rw [htake]
      rw [List.getD_append (newBytes ++ [0]) (raw.drop (off + oldLen + 1))
          0 (i - off) (by rw [hnl]; omega)]
    · rw [if_neg h4]
      rw [hnl] at h4
      have hlt : i < off := by
        by_contra hge
        push_neg at hge
        omega
      rw [if_pos (show 0 ≤ i ∧ i < 0 + (raw.take off).length by rw [htake]; omega)]
      rw [List.getD_append (raw.take off) ((newBytes ++ [0]) ++ raw.drop (off + oldLen + 1))
          0 i (by rw [htake]; omega)]
      simp

/-- The list of message bytes a buffer function denotes. -/
def bufList (buf : Nat → Nat) (len : Nat) : Bytes := (List.range len).map buf

/-- The five stores of `uevent_replace_member` produce, independently of
the uninitialized allocation contents, exactly the spliced byte list:
the header `memcpy` and the `properties_len` update of steps 1-2 are
completely overwritten by steps 3-5 because `msg.nlh` and `msg.raw` alias
in the union. -/
theorem replaceWrites_eq_spliceBytes (raw : Bytes) (off oldLen : Nat) (newBytes : Bytes)
    (junk : Nat → Nat) (hoff : off + oldLen + 1 ≤ raw.length) :
    bufList (replaceWrites raw off oldLen newBytes junk) (raw.length + newBytes.length - oldLen)
      = spliceBytes raw off oldLen newBytes := by
  apply List.ext_getElem
  · simp [bufList, spliceBytes_length raw off oldLen newBytes hoff]
  intro i h1 h2
  simp only [bufList, List.getElem_map, List.getElem_range]
  rw [replaceWrites_byte raw off oldLen newBytes junk hoff i (by simpa [bufList] using h1)]
  simp [List.getD_eq_getElem?_getD, List.getElem?_eq_getElem h2]

/-- `uevent_replace_member(uevent, oldmember, newmember)`: allocate a
fresh uevent, perform the five stores of `replaceWrites`, set
`msg_len += diff_len`, and re-parse (callers re-parse again themselves).
By `replaceWrites_eq_spliceBytes` the message bytes are this splice for
every allocation content, so the splice is taken as the definition.  The
C error paths are unreachable (`memcpy`/`strcpy` return their destination
pointer, which is never NULL).  `off` is `oldmember - uevent->msg.raw`
and `oldLen` is `strlen(oldmember)`. -/
def uevent_replace_member (F : UFrame) (off oldLen : Nat) (newBytes : Bytes) : UFrame :=
  ⟨spliceBytes F.raw off oldLen newBytes⟩

/-- The `prefix[8]` member of the udev header: bytes 0..7. -/
def hdrTag (raw : Bytes) : Bytes := (List.range 8).map (byteAt raw)

/-- The four `magic` bytes at offset 8 (network byte order on the wire;
two C `unsigned int`s are equal iff their four memory bytes agree, so
header comparisons are byte-list comparisons). -/
def hdrMagicBytes (raw : Bytes) : Bytes :=
  [byteAt raw 8, byteAt raw 9, byteAt raw 10, byteAt raw 11]

/-- The `header_size` member (host order, little-endian target). -/
def hdrHeaderSize (raw : Bytes) : Nat := readU32le raw 12

/-- The `properties_off` member (host order, little-endian target). -/
def hdrPropertiesOff (raw : Bytes) : Nat := readU32le raw 16

/-- The `properties_len` member (host order, little-endian target). -/
def hdrPropertiesLen (raw : Bytes) : Nat := readU32le raw 20

/-- The four filter-hash members: bytes 24..39. -/
def hdrFilterHashes (raw : Bytes) : Bytes := (List.range 16).map (fun i => byteAt raw (24 + i))

theorem spliceBytes_byteAt_lt (raw : Bytes) (off oldLen : Nat) (newBytes : Bytes) (i : Nat)
    (hi : i < off) (hoffr : off ≤ raw.length) :
    byteAt (spliceBytes raw off oldLen newBytes) i = byteAt raw i := by
  unfold spliceBytes byteAt
  have h1 : i < (raw.take off).length := by
    simp
    omega
  rw [List.getD_append _ _ _ _ h1]
  simp [List.getD_eq_getElem?_getD, List.getElem?_take_of_lt hi]

theorem encodeEntries_append (A B : List Bytes) :
    encodeEntries (A ++ B) = encodeEntries A ++ encodeEntries B := by
  induction A with
  | nil => simp [encodeEntries]
  | cons e rest ih =>
    rw [List.cons_append, encodeEntries_cons, encodeEntries_cons, ih]
    simp

/-- Replacing the slice that starts `k` bytes into entry `e` of an
encoded stream (the value of a `KEY=VALUE` entry when `k` is the key
length) splices the stream into the same stream with that entry's tail
replaced. -/
theorem spliceBytes_encode (pre : Bytes) (A B : List Bytes) (e : Bytes) (k : Nat) (newv : Bytes)
    (hk : k ≤ e.length) :
    spliceBytes (pre ++ encodeEntries (A ++ e :: B)) (pre.length + (encodeEntries A).length + k)
        (e.length - k) newv
      = pre ++ encodeEntries (A ++ (e.take k ++ newv) :: B) := by
  have hsplit : pre ++ encodeEntries (A ++ e :: B)
      = (pre ++ encodeEntries A) ++ (e ++ 0 :: encodeEntries B) := by
    rw [encodeEntries_append, encodeEntries_cons]
    simp
  have hsplit' : pre ++ encodeEntries (A ++ (e.take k ++ newv) :: B)
      = (pre ++ encodeEntries A) ++ ((e.take k ++ newv) ++ 0 :: encodeEntries B) := by
    rw [encodeEntries_append, encodeEntries_cons]
    simp
  rw [hsplit, hsplit']
  unfold spliceBytes
  have hplen : pre.length + (encodeEntries A).length = (pre ++ encodeEntries A).length := by
    simp
  rw [hplen]
  rw [List.take_append, List.take_append_of_le_length hk]
  have harith : (pre ++ encodeEntries A).length + k + (e.length - k) + 1
      = (pre ++ encodeEntries A).length + (e.length + 1) := by
    omega
  rw [harith, List.drop_append]
  have hdropE : (e ++ 0 :: encodeEntries B).drop (e.length + 1) = encodeEntries B := by
    have : e.length + 1 = (e ++ [0]).length := by simp
    rw [this]
    have : e ++ 0 :: encodeEntries B = (e ++ [0]) ++ encodeEntries B := by simp
    rw [this, List.drop_left]
  rw [hdropE]
  simp

/-- C `strstr`: offset of the first occurrence of `pat` in `s`, `none`
when absent. -/
def strstrIdx (s pat : Bytes) : Option Nat :=
  (List.range (s.length + 1)).find? (fun i => pat.isPrefixOf (s.drop i))

/-- `uevent_replace_devpath_new(str, oldstr, newstr)`: NULL when `oldstr`
does not occur in `str`; otherwise the first occurrence replaced. -/
def uevent_replace_devpath_new (s olds news : Bytes) : Option Bytes :=
  match strstrIdx s olds with
  | none => none
  | some i => some (s.take i ++ news ++ s.drop (i + olds.length))

/-- ASCII decimal digits of `n` (the `%d` of the `asprintf` in
`uevent_rename_ifi_new`); fuel-structural so it evaluates by kernel
reduction. -/
def decDigitsAux : Nat → Nat → Bytes
  | 0, _ => []
  | f + 1, n => if n < 10 then [48 + n] else decDigitsAux f (n / 10) ++ [48 + n % 10]

/-- ASCII decimal representation of a natural number. -/
def decDigits (n : Nat) : Bytes := decDigitsAux (n + 1) n

/-- The module-level rename counters `cmld_wlan_idx` and `cmld_eth_idx`
(static locals of `uevent_rename_ifi_new`, never reset). -/
structure RenameCtrs where
  wlan_idx : Nat
  eth_idx : Nat
deriving DecidableEq, Repr

/-- `uevent_rename_ifi_new(oldname, infix)`: pick the counter by
`strcmp(infix, "wlan")`, build `cml<infix><idx>`, bump the counter, then
call the external `network_rename_ifi` whose success the oracle
`renameOk` decides; on rename failure the name is freed and NULL
returned (the counter stays bumped). -/
def uevent_rename_ifi_new (renameOk : Bytes → Bytes → Bool) (ctrs : RenameCtrs)
    (oldname infx : Bytes) : Option Bytes × RenameCtrs :=
  let isWlan := infx == [119,108,97,110]
  let idx := if isWlan then ctrs.wlan_idx else ctrs.eth_idx
  let newname := [99,109,108] ++ infx ++ decDigits idx
  let ctrs' := if isWlan then { ctrs with wlan_idx := ctrs.wlan_idx + 1 }
               else { ctrs with eth_idx := ctrs.eth_idx + 1 }
  if renameOk oldname newname then (some newname, ctrs') else (none, ctrs')

/-- `uevent_rename_interface(uevent)`: rename the host interface, update
the physical-NIC registry, and build the rewritten uevents.  The function
constructs TWO rewritten clones — `uev_chname` substituting the
INTERFACE value and `uev_chdevpath` substituting the DEVPATH value — but
returns only `uev_chname` (the devpath-substituted clone is built and
leaked).  The registry update models the out-of-scope cmld helpers per
the spec: if the old name was tracked, remove it and add the new name.
A `none` member offset stands for the static `""` default, whose address
is outside the buffer and would fail the `ASSERT` in
`uevent_replace_member` (daemon abort), modelled as failure. -/
def uevent_rename_interface (renameOk : Bytes → Bytes → Bool) (ctrs : RenameCtrs)
    (netifs : List Bytes) (F : UFrame) (u : Uevent) :
    Option UFrame × RenameCtrs × List Bytes :=
  let iface := ustr F.raw u.interface
  match uevent_rename_ifi_new renameOk ctrs iface (ustr F.raw u.devtype) with
  | (none, ctrs') => (none, ctrs', netifs)
  | (some newname, ctrs') =>
    let netifs' := if iface ∈ netifs then netifs.erase iface ++ [newname] else netifs
    match uevent_replace_devpath_new (ustr F.raw u.devpath) iface newname with
    | none => (none, ctrs', netifs')
    | some new_devpath =>
      match u.interface, u.devpath with
      | some ioff, some doff =>
        let uev_chname := uevent_replace_member F ioff (cstrAt F.raw ioff).length newname
        let _uev_chdevpath := uevent_replace_member F doff (cstrAt F.raw doff).length new_devpath
        (some uev_chname, ctrs', netifs')
      | _, _ => (none, ctrs', netifs')

/-- `uevent_get_usb_vendor`: ID_VENDOR_ID when present, else the first
`%hx` component of `PRODUCT=vvvv/pppp/vers` (0 when the conversion
fails and `id_vendor` keeps its initialization). -/
def uevent_get_usb_vendor (product : Bytes) (id_vendor_id : Nat) : Nat :=
  if id_vendor_id ≠ 0 then id_vendor_id
  else ((scanHex16 product).map Prod.fst).getD 0

/-- `uevent_get_usb_product`: ID_MODEL_ID when present, else the second
`%hx` component of `PRODUCT` (the `sscanf` must first convert the vendor
and match the literal `/`). -/
def uevent_get_usb_product (product : Bytes) (id_model_id : Nat) : Nat :=
  if id_model_id ≠ 0 then id_model_id
  else
    match scanHex16 product with
    | none => 0
    | some (_, rest) =>
      match rest with
      | 47 :: r2 => ((scanHex16 r2).map Prod.fst).getD 0
      | _ => 0

/-- `struct uevent_usbdev` (the administrative description of a USB
device; `dtype` is the `uevent_usbdev_type_t` member). -/
structure UsbDev where
  i_serial : Bytes
  id_vendor : Nat
  id_product : Nat
  major : Int
  minor : Int
  assign : Bool
  dtype : Nat
deriving DecidableEq, Repr

/-- `uevent_usbdev_new`: major/minor start at -1. -/
def uevent_usbdev_new (dtype : Nat) (id_vendor id_product : Nat) (i_serial : Bytes)
    (assign : Bool) : UsbDev :=
  { i_serial := i_serial, id_vendor := id_vendor, id_product := id_product,
    major := -1, minor := -1, assign := assign, dtype := dtype }

/-- `uevent_container_dev_mapping_t`: container reference (a registry
id stands for the pointer), the owned copy of the usbdev, and the
mapping's own `assign` member — which `uevent_container_dev_mapping_new`
never assigns, so it stays false from `mem_new0`. -/
structure DevMapping where
  container : Nat
  usbdev : UsbDev
  assign : Bool
deriving DecidableEq, Repr

/-- `uevent_container_dev_mapping_new`: copies serial, vendor, product,
major, minor and assign into a fresh usbdev; the `type` member is not
copied (stays 0 from `mem_new0`), and `mapping->assign` is never set. -/
def uevent_container_dev_mapping_new (container : Nat) (d : UsbDev) : DevMapping :=
  { container := container,
    usbdev := { i_serial := d.i_serial, id_vendor := d.id_vendor, id_product := d.id_product,
                major := d.major, minor := d.minor, assign := d.assign, dtype := 0 },
    assign := false }

/-- The members of `container_pnet_cfg_t` this subsystem reads. -/
structure PnetCfg where
  pnet_name : Bytes
  mac_filter : Bool
deriving DecidableEq, Repr

/-- `uevent_container_netdev_mapping_t`. -/
structure NetMapping where
  container : Nat
  pnet_cfg : PnetCfg
  mac : Bytes
deriving DecidableEq, Repr

/-- `uevent_container_netdev_mapping_new`: fails iff the external
`network_str_to_mac_addr` (oracle `strToMac`) rejects `pnet_name`. -/
def uevent_container_netdev_mapping_new (strToMac : Bytes → Option Bytes)
    (container : Nat) (cfg : PnetCfg) : Option NetMapping :=
  match strToMac cfg.pnet_name with
  | none => none
  | some m => some { container := container, pnet_cfg := cfg, mac := m }

/-- `uevent_register_usbdevice`: unconditionally append a fresh mapping
to the list and return 0. -/
def uevent_register_usbdevice (table : List DevMapping) (container : Nat) (d : UsbDev) :
    Int × List DevMapping :=
  (0, table ++ [uevent_container_dev_mapping_new container d])

/-- The match test of the `uevent_unregister_usbdevice` loop: same
container pointer, same vendor, product and serial. -/
def usbMappingMatches (container : Nat) (d : UsbDev) (m : DevMapping) : Bool :=
  m.container == container && m.usbdev.id_vendor == d.id_vendor &&
    m.usbdev.id_product == d.id_product && m.usbdev.i_serial == d.i_serial

/-- Walker for the unregister loops: `i` is the index of the node under
the cursor, `acc` the index of the last matching node seen so far. -/
def lastMatchIdxFrom {α : Type} (p : α → Bool) : Nat → Option Nat → List α → Option Nat
  | _, acc, [] => acc
  | i, acc, x :: t => lastMatchIdxFrom p (i + 1) (if p x then some i else acc) t

/-- The unregister loops overwrite `mapping_to_remove` on every match, so
the pointer left after the loop is the LAST matching node; `list_remove`
then unlinks exactly that node (pointer comparison).  Modelled as the
index of the last matching element. -/
def lastMatchIdx {α : Type} (p : α → Bool) (l : List α) : Option Nat :=
  lastMatchIdxFrom p 0 none l

/-- `uevent_unregister_usbdevice`: -1 when no mapping matches, else
remove the last matching node and return 0. -/
def uevent_unregister_usbdevice (table : List DevMapping) (container : Nat) (d : UsbDev) :
    Int × List DevMapping :=
  match lastMatchIdx (usbMappingMatches container d) table with
  | none => (-1, table)
  | some i => (0, table.eraseIdx i)

/-- `uevent_register_netdev`: build the mapping (may fail on a non-MAC
`pnet_name`, returning -1), else append and return 0. -/
def uevent_register_netdev (strToMac : Bytes → Option Bytes) (table : List NetMapping)
    (container : Nat) (cfg : PnetCfg) : Int × List NetMapping :=
  match uevent_container_netdev_mapping_new strToMac container cfg with
  | none => (-1, table)
  | some m => (0, table ++ [m])

/-- The match test of the `uevent_unregister_netdev` loop: same container
pointer and `memcmp`-equal 6-byte MAC. -/
def netMappingMatches (container : Nat) (mac : Bytes) (m : NetMapping) : Bool :=
  m.container == container && m.mac == mac

/-- `uevent_unregister_netdev`: -1 when no mapping matches, else remove
the last matching node and return 0. -/
def uevent_unregister_netdev (table : List NetMapping) (container : Nat) (mac : Bytes) :
    Int × List NetMapping :=
  match lastMatchIdx (netMappingMatches container mac) table with
  | none => (-1, table)
  | some i => (0, table.eraseIdx i)

theorem lastMatchIdxFrom_append {α : Type} (p : α → Bool) (A B : List α) :
    ∀ (i : Nat) (acc : Option Nat),
      lastMatchIdxFrom p i acc (A ++ B)
        = lastMatchIdxFrom p (i + A.length) (lastMatchIdxFrom p i acc A) B := by
  induction A with
  | nil =>
    intro i acc
    simp [lastMatchIdxFrom]
  | cons a t ih =>
    intro i acc
    simp only [List.cons_append, lastMatchIdxFrom, List.append_eq]
    rw [ih]
    congr 1
    simp
    omega

theorem lastMatchIdxFrom_no_match {α : Type} (p : α → Bool) (B : List α)
    (hB : ∀ x ∈ B, p x = false) :
    ∀ (i : Nat) (acc : Option Nat), lastMatchIdxFrom p i acc B = acc := by
  induction B with
  | nil =>
    intro i acc
    rfl
  | cons b t ih =>
    intro i acc
    simp only [lastMatchIdxFrom, hB b (List.mem_cons_self b t)]
    exact ih (fun x hx => hB x (List.mem_cons_of_mem b hx)) (i + 1) acc

/-- Characterization of the unregister loop: when the list decomposes as
`A ++ m :: B` with `m` matching and nothing in `B` matching, the loop's
final `mapping_to_remove` is the node at index `A.length`. -/
theorem lastMatchIdx_decomp {α : Type} (p : α → Bool) (A : List α) (m : α) (B : List α)
    (hm : p m = true) (hB : ∀ x ∈ B, p x = false) :
    lastMatchIdx p (A ++ m :: B) = some A.length := by
  unfold lastMatchIdx
  rw [lastMatchIdxFrom_append]
  simp only [lastMatchIdxFrom, hm, if_pos]
  rw [lastMatchIdxFrom_no_match p B hB]
  simp

theorem eraseIdx_append_middle {α : Type} (A : List α) (m : α) (B : List α) :
    (A ++ m :: B).eraseIdx A.length = A ++ B := by
  induction A with
  | nil => rfl
  | cons a t ih =>
    simp only [List.cons_append, List.length_cons, List.eraseIdx, List.append_eq]
    rw [ih]

/-- The container states the dispatcher compares against
(`container_state_t` of the external container module). -/
inductive CState
  | starting | booting | running | setup | stopped | zombie
deriving DecidableEq, Repr

/-- Externally observable actions the router performs through its
collaborators, in program order. -/
inductive Effect
  | warn
  | deviceAllow (c : Nat) (major minor : Int) (assign : Bool)
  | deviceDeny (c : Nat) (major minor : Int)
  | injectUevent (pid : Int) (userns : Bool) (bytes : Bytes)
  | mkdirP (path : Bytes)
  | mknodDev (path : Bytes) (blockdev : Bool) (major minor : Int)
  | unlinkDev (path : Bytes)
  | shiftIds (c : Nat) (path : Bytes)
  | armNetTimer (frameBytes : Bytes)
  | attachNetIface (c : Nat)
deriving DecidableEq, Repr

/-- The out-of-scope collaborators (container registry, cgroup policy,
token subsystem, sysfs, filesystem, uuid parsing, network helpers,
injector child), as pure oracles.  Container pointers are registry
ids. -/
structure Env where
  containerState : Nat → CState
  containerPid : Nat → Int
  containerUserns : Nat → Bool
  containerRootdir : Nat → Bytes
  isDeviceAllowed : Nat → Int → Int → Bool
  fileExists : Bytes → Bool
  mkdirOk : Bool
  mknodOk : Bool
  shiftOk : Bool
  tokenDetach : Bytes → Int
  tokenAttach : Bytes → Bytes → Int
  serialFile : Bytes → Option Bytes
  synthLookup : Bytes → Option Nat
  containerCount : Nat
  containerByIndex : Nat → Option Nat
  hostedMode : Bool
  getMacByIfname : Bytes → Option Bytes
  c0 : Option Nat
  attachOk : Bool
  renameOk : Bytes → Bytes → Bool

/-- `uevent_handle_usb_device`: the USB dispatcher.  Returns whether the
event was consumed, the updated mapping table (an `add` match stores the
event's major/minor into the mapping), and the cgroup policy calls made.
The oracles are `cmld_token_detach`, `cmld_token_attach` and the read of
`/sys/<devpath>/serial` (`none` when the file is missing or unreadable).
All `strncmp(x, lit, strlen(lit))` guards are byte-prefix tests. -/
def uevent_handle_usb_device (tokenDetach : Bytes → Int) (tokenAttach : Bytes → Bytes → Int)
    (serialFile : Bytes → Option Bytes)
    (v : UView) (table : List DevMapping) : Bool × List DevMapping × List Effect :=
  if ¬ ([117,115,98].isPrefixOf v.subsystem ∧
        [117,115,98,95,100,101,118,105,99,101].isPrefixOf v.devtype) then
    (false, table, [])
  else if [114,101,109,111,118,101].isPrefixOf v.action then
    if tokenDetach v.devpath == 0 then (true, table, [])
    else
      let denies := table.filterMap (fun m =>
        if v.major == m.usbdev.major && v.minor == m.usbdev.minor then
          some (Effect.deviceDeny m.container m.usbdev.major m.usbdev.minor)
        else none)
      (false, table, denies)
  else if [97,100,100].isPrefixOf v.action then
    match serialFile v.devpath with
    | none => (false, table, [])
    | some content =>
      if content.length < 1 then (false, table, [])
      else
        let serial := if content.getLast? == some 10 then content.dropLast else content
        if tokenAttach serial v.devpath == 0 then (true, table, [])
        else
          let vendor := uevent_get_usb_vendor v.product v.id_vendor_id
          let product := uevent_get_usb_product v.product v.id_model_id
          let hit := fun (m : DevMapping) =>
            m.usbdev.id_vendor == vendor && m.usbdev.id_product == product &&
              m.usbdev.i_serial == serial
          let table' := table.map (fun m =>
            if hit m then { m with usbdev := { m.usbdev with major := v.major, minor := v.minor } }
            else m)
          let allows := table.filterMap (fun m =>
            if hit m then some (Effect.deviceAllow m.container v.major v.minor m.assign)
            else none)
          (false, table', allows)
  else (false, table, [])

/-- Index of the last `/` in a path, for `dirname`. -/
def lastSlashIdx (path : Bytes) : Option Nat :=
  (List.range path.length).foldl (fun acc i => if byteAt path i == 47 then some i else acc) none

/-- POSIX `dirname` on the paths this subsystem builds (no trailing
slashes arise: the path always ends in the DEVNAME component). -/
def dirnameB (path : Bytes) : Bytes :=
  match lastSlashIdx path with
  | none => [46]
  | some 0 => [47]
  | some i => path.take i

/-- `uevent_create_device_node`: when the node exists only the id-shift
runs; otherwise `dir_mkdir_p(dirname(path), 0755)`, then `mknod` with
`S_IFBLK` iff `devtype == "disk"` else `S_IFCHR`, then the id-shift.
Returns 0 or -1 together with the filesystem actions attempted. -/
def uevent_create_device_node (env : Env) (v : UView) (path : Bytes) (c : Nat) :
    Int × List Effect :=
  if env.fileExists path then
    if env.shiftOk then (0, [.shiftIds c path]) else (-1, [.shiftIds c path])
  else if ¬ env.mkdirOk then (-1, [.mkdirP (dirnameB path)])
  else
    let blockdev := v.devtype == [100,105,115,107]
    if ¬ env.mknodOk then
      (-1, [.mkdirP (dirnameB path), .mknodDev path blockdev v.major v.minor])
    else if env.shiftOk then
      (0, [.mkdirP (dirnameB path), .mknodDev path blockdev v.major v.minor, .shiftIds c path])
    else
      (-1, [.mkdirP (dirnameB path), .mknodDev path blockdev v.major v.minor, .shiftIds c path])

/-- `uevent_device_node_and_forward`: skip unless the container is in
BOOTING, RUNNING or SETUP; skip when cgroup policy forbids the device;
build `<rootdir></dev/?><devname>` (note the C tests only the first 4
bytes `"/dev"` of the prepended literal); create/unlink the node for
add/remove; finally fork the injector (injection failure only warns).
A failed node creation returns before injecting. -/
def uevent_device_node_and_forward (env : Env) (raw : Bytes) (v : UView) (c? : Option Nat) :
    List Effect :=
  match c? with
  | none => []
  | some c =>
    if ¬ (env.containerState c = .booting ∨ env.containerState c = .running ∨
          env.containerState c = .setup) then []
    else if ¬ env.isDeviceAllowed c v.major v.minor then []
    else
      let devname := env.containerRootdir c ++
        (if [47,100,101,118].isPrefixOf v.devname then [] else [47,100,101,118,47]) ++ v.devname
      let inject := Effect.injectUevent (env.containerPid c) (env.containerUserns c) raw
      if [97,100,100].isPrefixOf v.action then
        let r := uevent_create_device_node env v devname c
        if r.1 < 0 then r.2 else r.2 ++ [inject]
      else if [114,101,109,111,118,101].isPrefixOf v.action then
        [.unlinkDev devname, inject]
      else
        [inject]

/-- `handle_kernel_event`: parse from after the `ACTION@DEVPATH` header,
drop non-add/remove/change actions, run the USB dispatcher, route synth
events (SYNTH_UUID rewritten to "0") to their single target container,
arm the NIC timer for fresh physical net interfaces (also adding the
name to the cmld physical-NIC list), and otherwise fan the event out to
every container.  Returns the updated USB table, the updated
physical-NIC name list, and the effect trace. -/
def handle_kernel_event (env : Env) (usbT : List DevMapping) (netifs : List Bytes)
    (F : UFrame) (start : Nat) : List DevMapping × List Bytes × List Effect :=
  let u := uevent_parse F.raw F.raw.length {} start
  let v := viewOf F.raw u
  if ¬ ([97,100,100].isPrefixOf v.action ∨ [114,101,109,111,118,101].isPrefixOf v.action ∨
        [99,104,97,110,103,101].isPrefixOf v.action) then (usbT, netifs, [])
  else
    match uevent_handle_usb_device env.tokenDetach env.tokenAttach env.serialFile v usbT with
    | (consumed, usbT', usbEff) =>
      if consumed then (usbT', netifs, usbEff)
      else
        match env.synthLookup v.synth_uuid with
        | some c =>
          match u.synth_uuid with
          | some soff =>
            let uevFwd := uevent_replace_member F soff (cstrAt F.raw soff).length [48]
            let u2 := uevent_parse uevFwd.raw uevFwd.raw.length {} 0
            (usbT', netifs,
              usbEff ++ uevent_device_node_and_forward env uevFwd.raw (viewOf uevFwd.raw u2) (some c))
          | none =>
            (usbT', netifs, usbEff ++ [.warn])
        | none =>
          if [97,100,100].isPrefixOf v.action && v.subsystem == [110,101,116] &&
              strstrIdx v.devpath [118,105,114,116,117,97,108] == none && ¬ env.hostedMode then
            (usbT', netifs ++ [v.interface], usbEff ++ [.armNetTimer F.raw])
          else
            let fan := ((List.range env.containerCount).map (fun i =>
              uevent_device_node_and_forward env F.raw v (env.containerByIndex i))).flatten
            (usbT', netifs, usbEff ++ fan)

/-- C `strncmp(a, b, n) == 0`: byte-wise comparison from index `i`,
stopping successfully at a common NUL or after `n` bytes.  Reads beyond
the stored list are the NUL terminator / zero fill. -/
def strncmpEqFrom (a b : Bytes) : Nat → Nat → Bool
  | _, 0 => true
  | i, n + 1 =>
    if byteAt a i != byteAt b i then false
    else if byteAt a i == 0 then true
    else strncmpEqFrom a b (i + 1) n

/-- `strncmp(a, b, n) == 0`. -/
def strncmpEq (a b : Bytes) (n : Nat) : Bool := strncmpEqFrom a b 0 n

/-- `uevent_handle`: the netlink read callback.  Receive (a failed or
empty receive warns and returns), classify by the `"libudev"` prefix
(checked with `strncmp(..., msg_len)`), verify the magic — two C
`unsigned int`s are equal iff their four memory bytes agree, and the
magic is stored in network byte order on the wire, so the check compares
bytes 8..11 against FE ED CA FE on every host — and the
`properties_off + 32 ≤ msg_len` bound; a udev frame is then only parsed
(`handle_udev_event` forwards nothing).  A first token containing `@`
is a kernel frame handled after the header token.  Anything else is
dropped silently. -/
def uevent_handle (env : Env) (usbT : List DevMapping) (netifs : List Bytes) (msg : Bytes) :
    List DevMapping × List Bytes × List Effect :=
  if msg.length = 0 then (usbT, netifs, [.warn])
  else if strncmpEq msg [108,105,98,117,100,101,118] msg.length then
    if hdrMagicBytes msg != [254,237,202,254] then (usbT, netifs, [.warn])
    else if hdrPropertiesOff msg + 32 > msg.length then (usbT, netifs, [.warn])
    else (usbT, netifs, [])
  else if 64 ∈ cstrAt msg 0 then
    handle_kernel_event env usbT netifs ⟨msg⟩ ((cstrAt msg 0).length + 1)
  else (usbT, netifs, [])

/-- `uevent_netdev_move`: resolve the target container as the first
NetMapping whose MAC equals the interface's (else c0), test liveness
with the source's chain of `!=` disjunctions, synthesize a pnet config
when the mapping brought none, rename the interface (building the
rewritten uevent), attach the interface, and inject unless `mac_filter`
bridges the guest.  Returns the C result, the rename counters, the
physical-NIC list and the effect trace. -/
def uevent_netdev_move (env : Env) (netT : List NetMapping) (ctrs : RenameCtrs)
    (netifs : List Bytes) (F : UFrame) (u : Uevent) :
    Int × RenameCtrs × List Bytes × List Effect :=
  let v := viewOf F.raw u
  match env.getMacByIfname v.interface with
  | none => (-1, ctrs, netifs, [])
  | some iface_mac =>
    let found := netT.find? (fun m => m.mac == iface_mac)
    let container := match found with
      | some m => some m.container
      | none => env.c0
    match container with
    | none => (-1, ctrs, netifs, [.warn])
    | some c =>
      if (env.containerState c != .booting) || (env.containerState c != .running) ||
          (env.containerState c != .starting) then
        (-1, ctrs, netifs, [.warn])
      else
        let pnet := (found.map (fun m => m.pnet_cfg)).getD
          { pnet_name := v.interface, mac_filter := false }
        match uevent_rename_interface env.renameOk ctrs netifs F u with
        | (newF?, ctrs', netifs') =>
          let Fx := newF?.getD F
          if ¬ env.attachOk then (-1, ctrs', netifs', [.attachNetIface c])
          else if pnet.mac_filter then (0, ctrs', netifs', [.attachNetIface c])
          else
            (0, ctrs', netifs',
              [.attachNetIface c,
               .injectUevent (env.containerPid c) (env.containerUserns c) Fx.raw])

theorem fieldV_defaults (raw : Bytes) (u0 : Uevent) (f : UField) :
    fieldV f (viewOf raw (uevent_defaults u0)) =
      (match f with
       | .major => .z (-1)
       | .minor => .z (-1)
       | .id_vendor_id => .w 0
       | .id_model_id => .w 0
       | .driver => .s (ustr raw u0.driver)
       | _ => .s []) := by
  cases f <;> rfl

/-- C5 (amended): after `uevent_parse` over a well-formed property
stream, every recognized member whose key does not occur holds its
default — the empty string for the string members the function resets,
-1 for major/minor, 0 for the two ids — EXCEPT `driver`, which keeps
whatever the struct held before the call (the parser never initializes
it). -/
theorem C5_missing_defaults (pre : Bytes) (es : List Bytes) (u0 : Uevent) (raw : Bytes)
    (hraw : raw = pre ++ encodeEntries es) (hgood : ∀ e ∈ es, goodE e) (f : UField)
    (habs : ∀ e ∈ es, branchOf e ≠ some f) :
    fieldV f (viewOf raw (uevent_parse raw raw.length u0 pre.length))
      = (match f with
         | .major => .z (-1)
         | .minor => .z (-1)
         | .id_vendor_id => .w 0
         | .id_model_id => .w 0
         | .driver => .s (ustr raw u0.driver)
         | _ => .s []) := by
  rw [uevent_parse_encode pre es u0 raw hraw hgood,
      foldEntries_not_branch es f _ habs, fieldV_defaults]
  cases f <;> rfl

/-- C5 witness: a stream with only ACTION=add leaves interface at the
empty string and major at -1. -/
theorem C5_missing_defaults_witness :
    fieldV .interface
        (viewOf [65,67,84,73,79,78,61,97,100,100,0]
          (uevent_parse [65,67,84,73,79,78,61,97,100,100,0] 11 {} 0))
      = .s [] ∧
    fieldV .major
        (viewOf [65,67,84,73,79,78,61,97,100,100,0]
          (uevent_parse [65,67,84,73,79,78,61,97,100,100,0] 11 {} 0))
      = .z (-1) :=
  ⟨C5_missing_defaults [] [[65,67,84,73,79,78,61,97,100,100]] {} _ (by decide)
      (by decide) .interface (by decide),
   C5_missing_defaults [] [[65,67,84,73,79,78,61,97,100,100]] {} _ (by decide)
      (by decide) .major (by decide)⟩

/-- C5 counterexample: `uevent_parse` does not reset `driver`; parsing a
stream without DRIVER= out of a struct whose `driver` member holds a
stale pointer (as the non-zeroed allocation of `uevent_replace_member`
produces) leaves `driver` pointing at whatever it pointed at — here the
first entry — not at the empty string the claim demands. -/
theorem C5_driver_counterexample :
    fieldV .driver
        (viewOf [65,67,84,73,79,78,61,97,100,100,0]
          (uevent_parse [65,67,84,73,79,78,61,97,100,100,0] 11 { driver := some 0 } 0))
      ≠ .s [] := by
  decide

/-- The recognized properties claim C3 enumerates: every parsed member
except `driver`. -/
def claimFields : List UField :=
  [.action, .devpath, .subsystem, .major, .minor, .devname, .devtype, .product,
   .id_vendor_id, .id_model_id, .id_serial_short, .interface, .synth_uuid]

theorem foldEntries_split (A B : List Bytes) (v0 : UView) (e : Bytes) :
    foldEntries v0 (A ++ e :: B) = foldEntries (applyEntryV (foldEntries v0 A) e) B := by
  unfold foldEntries
  rw [List.foldl_append]
  rfl

/-- C3: rewriting the value of a property entry with
`uevent_replace_member` and re-parsing yields the new value for the
rewritten property, and the value parsed from the original frame for
every other recognized property.  The frame is `pre` (header bytes up to
the parse start) followed by the encoded stream `A ++ (KEY ++ oldv) :: B`;
the rewritten slice is the value `oldv` of that entry; `B` carries no
further entry for the same property (the C view keeps the last
occurrence); the initial struct contents `u0`/`u1` are arbitrary. -/
theorem C3_replace_then_parse
    (pre oldv newv : Bytes) (A B : List Bytes) (f : UField) (u0 u1 : Uevent) (raw : Bytes)
    (hraw : raw = pre ++ encodeEntries (A ++ (fieldKey f ++ oldv) :: B))
    (hgood : ∀ e ∈ A ++ (fieldKey f ++ oldv) :: B, goodE e)
    (hstr : isStringF f = true)
    (hnew0 : (0 : Nat) ∉ newv)
    (hbOld : branchOf (fieldKey f ++ oldv) = some f)
    (hbNew : branchOf (fieldKey f ++ newv) = some f)
    (hlast : ∀ e ∈ B, branchOf e ≠ some f) :
    fieldV f (viewOf (uevent_replace_member ⟨raw⟩
          (pre.length + (encodeEntries A).length + (fieldKey f).length) oldv.length newv).raw
        (uevent_parse (uevent_replace_member ⟨raw⟩
            (pre.length + (encodeEntries A).length + (fieldKey f).length) oldv.length newv).raw
          (uevent_replace_member ⟨raw⟩
            (pre.length + (encodeEntries A).length + (fieldKey f).length) oldv.length newv).raw.length
          u1 pre.length))
      = .s newv ∧
    ∀ g ∈ claimFields, g ≠ f →
      fieldV g (viewOf (uevent_replace_member ⟨raw⟩
            (pre.length + (encodeEntries A).length + (fieldKey f).length) oldv.length newv).raw
          (uevent_parse (uevent_replace_member ⟨raw⟩
              (pre.length + (encodeEntries A).length + (fieldKey f).length) oldv.length newv).raw
            (uevent_replace_member ⟨raw⟩
              (pre.length + (encodeEntries A).length + (fieldKey f).length) oldv.length newv).raw.length
            u1 pre.length))
        = fieldV g (viewOf raw (uevent_parse raw raw.length u0 pre.length)) := by
  have hkey0 : (0 : Nat) ∉ fieldKey f := by cases f <;> decide
  have hsplice : (uevent_replace_member ⟨raw⟩
        (pre.length + (encodeEntries A).length + (fieldKey f).length) oldv.length newv).raw
      = pre ++ encodeEntries (A ++ (fieldKey f ++ newv) :: B) := by
    show spliceBytes raw (pre.length + (encodeEntries A).length + (fieldKey f).length)
        oldv.length newv = _
    rw [hraw]
    have hs := spliceBytes_encode pre A B (fieldKey f ++ oldv) (fieldKey f).length newv
      (by simp)
    rw [List.take_left] at hs
    have hlen : (fieldKey f ++ oldv).length - (fieldKey f).length = oldv.length := by
      simp
    rw [hlen] at hs
    exact hs
  have hgood' : ∀ e ∈ A ++ (fieldKey f ++ newv) :: B, goodE e := by
    intro e he
    rcases List.mem_append.mp he with hA | hCB
    · exact hgood e (List.mem_append.mpr (Or.inl hA))
    · rcases List.mem_cons.mp hCB with rfl | hB
      · constructor
        · intro hnil
          have hk : fieldKey f = [] := (List.append_eq_nil.mp hnil).1
          cases f <;> simp [fieldKey] at hk
        · intro hmem
          rcases List.mem_append.mp hmem with h | h
          · exact hkey0 h
          · exact hnew0 h
      · exact hgood e (List.mem_append.mpr (Or.inr (List.mem_cons_of_mem _ hB)))
  have hv' := uevent_parse_encode pre (A ++ (fieldKey f ++ newv) :: B) u1 _ hsplice hgood'
  have hv := uevent_parse_encode pre (A ++ (fieldKey f ++ oldv) :: B) u0 raw hraw hgood
  rw [hsplice] at hv' ⊢
  rw [hv', hv, foldEntries_split, foldEntries_split]
  have hinit : ∀ g, ¬ g = UField.driver →
      fieldV g (viewOf (pre ++ encodeEntries (A ++ (fieldKey f ++ newv) :: B)) (uevent_defaults u1))
        = fieldV g (viewOf raw (uevent_defaults u0)) := by
    intro g hg
    rw [fieldV_defaults, fieldV_defaults]
    cases g <;> first | rfl | exact absurd rfl hg
  have hW := foldEntries_congr A (fun g => g = UField.driver) _ _ hinit
  constructor
  · rw [foldEntries_not_branch B f _ hlast]
    rw [applyEntryV_value _ _ f hbNew hstr]
    rw [List.drop_left]
  · intro g hgmem hgf
    have hgdrv : ¬ g = UField.driver := by
      intro h
      subst h
      revert hgmem
      decide
    apply foldEntries_congr B (fun x => x = f ∨ x = UField.driver) _ _ ?_ g
      (by
        intro hor
        rcases hor with h | h
        · exact hgf h
        · exact hgdrv h)
    intro g2 hg2
    have hg2f : g2 ≠ f := fun h => hg2 (Or.inl h)
    have hg2d : g2 ≠ UField.driver := fun h => hg2 (Or.inr h)
    rw [applyEntryV_other _ _ g2 (fun hc => hg2f (Option.some.inj (hbNew.symm.trans hc)).symm),
        applyEntryV_other _ _ g2 (fun hc => hg2f (Option.some.inj (hbOld.symm.trans hc)).symm)]
    exact hW g2 hg2d

/-- C3 witness: rewrite INTERFACE=eth5 to cmleth0 inside a concrete
three-entry stream; the re-parsed interface is cmleth0 and the devpath
equals the original parse's devpath, with differing initial struct
contents on the two parses. -/
theorem C3_replace_then_parse_witness :
    (fieldV .interface (viewOf (uevent_replace_member
          ⟨encodeEntries
            [[65,67,84,73,79,78,61,97,100,100],
             [73,78,84,69,82,70,65,67,69,61,101,116,104,53],
             [68,69,86,80,65,84,72,61,47,120,47,101,116,104,53]]⟩
          21 4 [99,109,108,101,116,104,48]).raw
        (uevent_parse (uevent_replace_member
            ⟨encodeEntries
              [[65,67,84,73,79,78,61,97,100,100],
               [73,78,84,69,82,70,65,67,69,61,101,116,104,53],
               [68,69,86,80,65,84,72,61,47,120,47,101,116,104,53]]⟩
            21 4 [99,109,108,101,116,104,48]).raw
          (uevent_replace_member
            ⟨encodeEntries
              [[65,67,84,73,79,78,61,97,100,100],
               [73,78,84,69,82,70,65,67,69,61,101,116,104,53],
               [68,69,86,80,65,84,72,61,47,120,47,101,116,104,53]]⟩
            21 4 [99,109,108,101,116,104,48]).raw.length
          { driver := some 2 } 0))
      = .s [99,109,108,101,116,104,48]) ∧
    fieldV .devpath (viewOf (uevent_replace_member
          ⟨encodeEntries
            [[65,67,84,73,79,78,61,97,100,100],
             [73,78,84,69,82,70,65,67,69,61,101,116,104,53],
             [68,69,86,80,65,84,72,61,47,120,47,101,116,104,53]]⟩
          21 4 [99,109,108,101,116,104,48]).raw
        (uevent_parse (uevent_replace_member
            ⟨encodeEntries
              [[65,67,84,73,79,78,61,97,100,100],
               [73,78,84,69,82,70,65,67,69,61,101,116,104,53],
               [68,69,86,80,65,84,72,61,47,120,47,101,116,104,53]]⟩
            21 4 [99,109,108,101,116,104,48]).raw
          (uevent_replace_member
            ⟨encodeEntries
              [[65,67,84,73,79,78,61,97,100,100],
               [73,78,84,69,82,70,65,67,69,61,101,116,104,53],
               [68,69,86,80,65,84,72,61,47,120,47,101,116,104,53]]⟩
            21 4 [99,109,108,101,116,104,48]).raw.length
          { driver := some 2 } 0))
      = fieldV .devpath (viewOf (encodeEntries
            [[65,67,84,73,79,78,61,97,100,100],
             [73,78,84,69,82,70,65,67,69,61,101,116,104,53],
             [68,69,86,80,65,84,72,61,47,120,47,101,116,104,53]])
          (uevent_parse (encodeEntries
              [[65,67,84,73,79,78,61,97,100,100],
               [73,78,84,69,82,70,65,67,69,61,101,116,104,53],
               [68,69,86,80,65,84,72,61,47,120,47,101,116,104,53]])
            (encodeEntries
              [[65,67,84,73,79,78,61,97,100,100],
               [73,78,84,69,82,70,65,67,69,61,101,116,104,53],
               [68,69,86,80,65,84,72,61,47,120,47,101,116,104,53]]).length
            {} 0)) := by
  refine ⟨?_, ?_⟩
  · exact (C3_replace_then_parse [] [101,116,104,53] [99,109,108,101,116,104,48]
      [[65,67,84,73,79,78,61,97,100,100]]
      [[68,69,86,80,65,84,72,61,47,120,47,101,116,104,53]]
      .interface {} { driver := some 2 } _ rfl (by decide) (by decide) (by decide)
      (by decide) (by decide) (by decide)).1
  · exact (C3_replace_then_parse [] [101,116,104,53] [99,109,108,101,116,104,48]
      [[65,67,84,73,79,78,61,97,100,100]]
      [[68,69,86,80,65,84,72,61,47,120,47,101,116,104,53]]
      .interface {} { driver := some 2 } _ rfl (by decide) (by decide) (by decide)
      (by decide) (by decide) (by decide)).2 .devpath (by decide) (by decide)

/-- The failing input for C2: a udev frame (40-byte header with prefix
`libudev`, magic FE ED CA FE, `header_size = 40`, `properties_off = 40`,
`properties_len = 26`, zero filter hashes) carrying the properties
ACTION=add and INTERFACE=eth5. -/
def c2Frame : UFrame :=
  ⟨[108,105,98,117,100,101,118,0, 254,237,202,254, 40,0,0,0, 40,0,0,0, 26,0,0,0,
    0,0,0,0, 0,0,0,0, 0,0,0,0, 0,0,0,0,
    65,67,84,73,79,78,61,97,100,100,0,
    73,78,84,69,82,70,65,67,69,61,101,116,104,53,0]⟩

/-- C2 at the failing input: rewriting the INTERFACE value `eth5`
(offset 61, length 4) to `cmleth0` yields a frame whose total length is
`len(F) + len(new) - len(old)` and whose prefix, magic, header_size,
properties_off and filter hashes are byte-for-byte those of `F` — but
whose `properties_len` header field still reads 26, not the
`26 + 7 - 4 = 29` the claim requires: the store
`newevent->msg.nlh.properties_len = ... + diff_len` is overwritten by
the subsequent `memcpy(newevent->msg.raw, uevent->msg.raw, off_member)`
because `msg.nlh` and `msg.raw` alias in the union (`replaceWrites` and
`replaceWrites_eq_spliceBytes` trace the five stores). -/
theorem C2_properties_len_not_updated :
    (uevent_replace_member c2Frame 61 4 [99,109,108,101,116,104,48]).raw.length
        = c2Frame.raw.length + 7 - 4 ∧
    hdrTag (uevent_replace_member c2Frame 61 4 [99,109,108,101,116,104,48]).raw
        = hdrTag c2Frame.raw ∧
    hdrMagicBytes (uevent_replace_member c2Frame 61 4 [99,109,108,101,116,104,48]).raw
        = hdrMagicBytes c2Frame.raw ∧
    hdrHeaderSize (uevent_replace_member c2Frame 61 4 [99,109,108,101,116,104,48]).raw
        = hdrHeaderSize c2Frame.raw ∧
    hdrPropertiesOff (uevent_replace_member c2Frame 61 4 [99,109,108,101,116,104,48]).raw
        = hdrPropertiesOff c2Frame.raw ∧
    hdrFilterHashes (uevent_replace_member c2Frame 61 4 [99,109,108,101,116,104,48]).raw
        = hdrFilterHashes c2Frame.raw ∧
    hdrPropertiesLen c2Frame.raw = 26 ∧
    hdrPropertiesLen (uevent_replace_member c2Frame 61 4 [99,109,108,101,116,104,48]).raw = 26 ∧
    hdrPropertiesLen (uevent_replace_member c2Frame 61 4 [99,109,108,101,116,104,48]).raw
        ≠ 26 + 7 - 4 := by
  decide

/-- The S1 kernel frame:
`add@/devices/pci0000:00/usb1` followed by ACTION=add,
DEVPATH=/devices/pci0000:00/usb1, SUBSYSTEM=usb, DEVTYPE=usb_device,
MAJOR=189, MINOR=3, PRODUCT=1d6b/2/410.  Properties start at offset
29. -/
def c7Frame : UFrame :=
  ⟨[97,100,100,64,47,100,101,118,105,99,101,115,47,112,99,105,48,48,48,48,58,48,48,47,117,115,98,49,0,
    65,67,84,73,79,78,61,97,100,100,0,
    68,69,86,80,65,84,72,61,47,100,101,118,105,99,101,115,47,112,99,105,48,48,48,48,58,48,48,47,117,115,98,49,0,
    83,85,66,83,89,83,84,69,77,61,117,115,98,0,
    68,69,86,84,89,80,69,61,117,115,98,95,100,101,118,105,99,101,0,
    77,65,74,79,82,61,49,56,57,0,
    77,73,78,79,82,61,51,0,
    80,82,79,68,85,67,84,61,49,100,54,98,47,50,47,52,49,48,0]⟩

set_option maxRecDepth 4000 in
/-- C7 (scenario S1): with the registered mapping
`{c1, vendor 0x1d6b, product 0x0002, serial "0000:00:14.0", assign false}`
(container id 1), no token attachment (`cmld_token_attach` returns -1),
and `/sys/<devpath>/serial` reading `"0000:00:14.0\n"`, the USB
dispatcher run on the parsed S1 frame emits exactly one
`device_allow(c1, 189, 3, false)` call, does not consume the event, and
updates the mapping's (major, minor) to (189, 3). -/
theorem C7_usb_allow_scenario :
    uevent_handle_usb_device (fun _ => -1) (fun _ _ => -1)
        (fun _ => some [48,48,48,48,58,48,48,58,49,52,46,48,10])
        (viewOf c7Frame.raw (uevent_parse c7Frame.raw c7Frame.raw.length {} 29))
        (uevent_register_usbdevice [] 1
          (uevent_usbdev_new 0 7531 2 [48,48,48,48,58,48,48,58,49,52,46,48] false)).2
      = (false,
         [{ container := 1,
            usbdev := { i_serial := [48,48,48,48,58,48,48,58,49,52,46,48],
                        id_vendor := 7531, id_product := 2,
                        major := 189, minor := 3, assign := false, dtype := 0 },
            assign := false }],
         [Effect.deviceAllow 1 189 3 false]) := by
  decide

/-- C1 (code bug): the liveness check of `uevent_netdev_move` is the
chain `(state != BOOTING) || (state != RUNNING) || (state != STARTING)`,
which is true for every state, so the move is skipped with a warning and
the -1 result even when the resolved container is RUNNING — the case in
which the claim (and section 4.C of the specification) requires the
move to proceed.  Stated for any environment in which the interface MAC
resolves and the first matching NetMapping names a RUNNING container:
the result is the error return with only the warning emitted (no
rename, no attach, no injection). -/
theorem C1_netdev_move_skips_live_container (env : Env) (netT : List NetMapping)
    (ctrs : RenameCtrs) (netifs : List Bytes) (F : UFrame) (u : Uevent)
    (mac : Bytes) (m : NetMapping)
    (hmac : env.getMacByIfname (viewOf F.raw u).interface = some mac)
    (hfind : netT.find? (fun m2 => m2.mac == mac) = some m)
    (hst : env.containerState m.container = .running) :
    uevent_netdev_move env netT ctrs netifs F u = (-1, ctrs, netifs, [.warn]) := by
  unfold uevent_netdev_move
  simp only [hmac, hfind, hst]
  rfl

/-- C1 witness: a concrete environment whose single mapping targets a
RUNNING container; the move is still skipped. -/
theorem C1_netdev_move_skips_live_container_witness :
    uevent_netdev_move
        { containerState := fun _ => .running, containerPid := fun _ => 7,
          containerUserns := fun _ => false, containerRootdir := fun _ => [],
          isDeviceAllowed := fun _ _ _ => true, fileExists := fun _ => false,
          mkdirOk := true, mknodOk := true, shiftOk := true,
          tokenDetach := fun _ => -1, tokenAttach := fun _ _ => -1,
          serialFile := fun _ => none, synthLookup := fun _ => none,
          containerCount := 0, containerByIndex := fun _ => none,
          hostedMode := false, getMacByIfname := fun _ => some [82,84,0,18,52,86],
          c0 := some 0, attachOk := true, renameOk := fun _ _ => true }
        [{ container := 1, pnet_cfg := { pnet_name := [], mac_filter := false },
           mac := [82,84,0,18,52,86] }]
        ⟨0, 0⟩ [] ⟨[]⟩ {}
      = (-1, ⟨0, 0⟩, [], [.warn]) :=
  C1_netdev_move_skips_live_container _ _ _ _ _ _ [82,84,0,18,52,86]
    { container := 1, pnet_cfg := { pnet_name := [], mac_filter := false },
      mac := [82,84,0,18,52,86] }
    rfl (by decide) rfl

/-- The S4 kernel frame: `add@/devices/pci0000:00/net/eth5` with
ACTION=add, DEVPATH=/devices/pci0000:00/net/eth5, SUBSYSTEM=net,
DEVTYPE=eth, INTERFACE=eth5.  Properties start at offset 33. -/
def c4Frame : UFrame :=
  ⟨[97,100,100,64,47,100,101,118,105,99,101,115,47,112,99,105,48,48,48,48,58,48,48,47,110,101,116,47,101,116,104,53,0,
    65,67,84,73,79,78,61,97,100,100,0,
    68,69,86,80,65,84,72,61,47,100,101,118,105,99,101,115,47,112,99,105,48,48,48,48,58,48,48,47,110,101,116,47,101,116,104,53,0,
    83,85,66,83,89,83,84,69,77,61,110,101,116,0,
    68,69,86,84,89,80,69,61,101,116,104,0,
    73,78,84,69,82,70,65,67,69,61,101,116,104,53,0]⟩

set_option maxRecDepth 8000 in
/-- C4 (code bug): after a successful host rename of `eth5` to `cmleth0`
(`network_rename_ifi` succeeding, eth counter at 0),
`uevent_rename_interface` returns the `uev_chname` clone only: parsing
the returned frame gives INTERFACE = `cmleth0`, but DEVPATH is the
original `/devices/pci0000:00/net/eth5` — the `eth5` occurrence is still
there and `cmleth0` occurs nowhere in it.  The devpath-substituted clone
`uev_chdevpath` is built and leaked (uevent.c:487-497), contradicting
the claim that the single forwarded frame carries both substitutions. -/
theorem C4_forwarded_frame_keeps_old_devpath :
    ((uevent_rename_interface (fun _ _ => true) ⟨0, 0⟩ [] c4Frame
        (uevent_parse c4Frame.raw c4Frame.raw.length {} 33)).1.map (fun F2 =>
          (ustr F2.raw (uevent_parse F2.raw F2.raw.length {} 0).interface,
           ustr F2.raw (uevent_parse F2.raw F2.raw.length {} 0).devpath)))
      = some ([99,109,108,101,116,104,48],
              [47,100,101,118,105,99,101,115,47,112,99,105,48,48,48,48,58,48,48,47,110,101,116,47,101,116,104,53]) ∧
    ((uevent_rename_interface (fun _ _ => true) ⟨0, 0⟩ [] c4Frame
        (uevent_parse c4Frame.raw c4Frame.raw.length {} 33)).1.map (fun F2 =>
          (strstrIdx (ustr F2.raw (uevent_parse F2.raw F2.raw.length {} 0).devpath)
             [101,116,104,53],
           strstrIdx (ustr F2.raw (uevent_parse F2.raw F2.raw.length {} 0).devpath)
             [99,109,108,101,116,104,48])))
      = some (some 24, none) := by
  decide

/-- The (container, vendor, product, serial) identity of claim C6. -/
def sameUsbIdentity (m1 m2 : DevMapping) : Bool :=
  m1.container == m2.container && m1.usbdev.id_vendor == m2.usbdev.id_vendor &&
    m1.usbdev.id_product == m2.usbdev.id_product && m1.usbdev.i_serial == m2.usbdev.i_serial

/-- C6 counterexample: registering the same (container, vendor, product,
serial) twice appends twice — the table ends with TWO mappings of equal
identity, so the second register did not replace the first and the
at-most-one-per-identity invariant does not survive. -/
theorem C6_register_duplicates_counterexample :
    (uevent_register_usbdevice
        ((uevent_register_usbdevice [] 1 (uevent_usbdev_new 0 7531 2 [97] false)).2) 1
        (uevent_usbdev_new 0 7531 2 [97] false)).2
      = [uevent_container_dev_mapping_new 1 (uevent_usbdev_new 0 7531 2 [97] false),
         uevent_container_dev_mapping_new 1 (uevent_usbdev_new 0 7531 2 [97] false)] ∧
    sameUsbIdentity
        (uevent_container_dev_mapping_new 1 (uevent_usbdev_new 0 7531 2 [97] false))
        (uevent_container_dev_mapping_new 1 (uevent_usbdev_new 0 7531 2 [97] false)) = true := by
  decide

/-- C6 (amended): `uevent_register_usbdevice` appends a fresh mapping
unconditionally and returns 0; when a mapping with the same identity is
already present, the earlier record is left untouched (its major/minor
are not reset) and the table afterwards holds at least two mappings of
that identity. -/
theorem C6_register_appends (table : List DevMapping) (c : Nat) (d : UsbDev)
    (m : DevMapping) (hm : m ∈ table)
    (hid : sameUsbIdentity m (uevent_container_dev_mapping_new c d) = true) :
    (uevent_register_usbdevice table c d).1 = 0 ∧
    (uevent_register_usbdevice table c d).2 = table ++ [uevent_container_dev_mapping_new c d] ∧
    2 ≤ ((uevent_register_usbdevice table c d).2.filter
          (fun x => sameUsbIdentity x (uevent_container_dev_mapping_new c d))).length := by
  refine ⟨rfl, rfl, ?_⟩
  show 2 ≤ ((table ++ [uevent_container_dev_mapping_new c d]).filter
      (fun x => sameUsbIdentity x (uevent_container_dev_mapping_new c d))).length
  rw [List.filter_append]
  have hself : sameUsbIdentity (uevent_container_dev_mapping_new c d)
      (uevent_container_dev_mapping_new c d) = true := by
    simp [sameUsbIdentity]
  have h1 : m ∈ table.filter (fun x => sameUsbIdentity x (uevent_container_dev_mapping_new c d)) :=
    List.mem_filter.mpr ⟨hm, hid⟩
  have h2 : 1 ≤ (table.filter
      (fun x => sameUsbIdentity x (uevent_container_dev_mapping_new c d))).length :=
    List.length_pos.mpr (List.ne_nil_of_mem h1)
  simp [hself]
  omega

/-- C6 witness: a table already holding the identity. -/
theorem C6_register_appends_witness :
    (uevent_register_usbdevice
        [uevent_container_dev_mapping_new 1 (uevent_usbdev_new 0 7531 2 [97] false)] 1
        (uevent_usbdev_new 0 7531 2 [97] false)).1 = 0 ∧
    (uevent_register_usbdevice
        [uevent_container_dev_mapping_new 1 (uevent_usbdev_new 0 7531 2 [97] false)] 1
        (uevent_usbdev_new 0 7531 2 [97] false)).2
      = [uevent_container_dev_mapping_new 1 (uevent_usbdev_new 0 7531 2 [97] false)]
        ++ [uevent_container_dev_mapping_new 1 (uevent_usbdev_new 0 7531 2 [97] false)] ∧
    2 ≤ ((uevent_register_usbdevice
        [uevent_container_dev_mapping_new 1 (uevent_usbdev_new 0 7531 2 [97] false)] 1
        (uevent_usbdev_new 0 7531 2 [97] false)).2.filter
          (fun x => sameUsbIdentity x
            (uevent_container_dev_mapping_new 1 (uevent_usbdev_new 0 7531 2 [97] false)))).length :=
  C6_register_appends _ 1 _
    (uevent_container_dev_mapping_new 1 (uevent_usbdev_new 0 7531 2 [97] false))
    (by decide) (by decide)

/-- C9: registering a USB mapping and unregistering it with the same
(container, identity) restores the table exactly and returns 0, for
every prior table; likewise for a NET mapping whose `pnet_name` parses
as a MAC (the identity under which it is unregistered). -/
theorem C9_register_unregister_roundtrip :
    (∀ (table : List DevMapping) (c : Nat) (d : UsbDev),
        uevent_unregister_usbdevice (uevent_register_usbdevice table c d).2 c d = (0, table)) ∧
    (∀ (strToMac : Bytes → Option Bytes) (table : List NetMapping) (c : Nat) (cfg : PnetCfg)
        (mac : Bytes), strToMac cfg.pnet_name = some mac →
        uevent_unregister_netdev (uevent_register_netdev strToMac table c cfg).2 c mac
          = (0, table)) := by
  constructor
  · intro table c d
    show uevent_unregister_usbdevice (table ++ uevent_container_dev_mapping_new c d :: []) c d
      = (0, table)
    unfold uevent_unregister_usbdevice
    have hmatch : usbMappingMatches c d (uevent_container_dev_mapping_new c d) = true := by
      simp [usbMappingMatches, uevent_container_dev_mapping_new]
    rw [lastMatchIdx_decomp _ table _ [] hmatch (by intro x hx; cases hx)]
    show (0, (table ++ uevent_container_dev_mapping_new c d :: []).eraseIdx table.length)
      = ((0 : Int), table)
    rw [eraseIdx_append_middle]
    simp
  · intro strToMac table c cfg mac hmac
    have hreg : (uevent_register_netdev strToMac table c cfg).2
        = table ++ ({ container := c, pnet_cfg := cfg, mac := mac } : NetMapping) :: [] := by
      unfold uevent_register_netdev uevent_container_netdev_mapping_new
      rw [hmac]
    rw [hreg]
    unfold uevent_unregister_netdev
    have hmatch : netMappingMatches c mac
        { container := c, pnet_cfg := cfg, mac := mac } = true := by
      simp [netMappingMatches]
    rw [lastMatchIdx_decomp _ table _ [] hmatch (by intro x hx; cases hx)]
    show (0, (table ++ ({ container := c, pnet_cfg := cfg, mac := mac } : NetMapping)
        :: []).eraseIdx table.length) = ((0 : Int), table)
    rw [eraseIdx_append_middle]
    simp

/-- C9 witness: the round trip at a concrete table, device and MAC. -/
theorem C9_register_unregister_roundtrip_witness :
    uevent_unregister_usbdevice
        (uevent_register_usbdevice [] 1 (uevent_usbdev_new 0 7531 2 [97] false)).2 1
        (uevent_usbdev_new 0 7531 2 [97] false) = (0, []) ∧
    uevent_unregister_netdev
        (uevent_register_netdev (fun _ => some [82,84,0,18,52,86]) [] 1
          { pnet_name := [53,50], mac_filter := false }).2 1 [82,84,0,18,52,86]
      = (0, []) :=
  ⟨C9_register_unregister_roundtrip.1 [] 1 (uevent_usbdev_new 0 7531 2 [97] false),
   C9_register_unregister_roundtrip.2 (fun _ => some [82,84,0,18,52,86]) [] 1
     { pnet_name := [53,50], mac_filter := false } [82,84,0,18,52,86] rfl⟩

/-- C10: when several stored mappings match the given (container,
identity), unregistering removes exactly one — the last matching one in
list order (the most recently registered) — returns 0, and leaves every
non-matching and earlier matching entry in place.  The table is written
`A ++ m :: B` with `m` the last match (`B` match-free); the premise that
more than one mapping matches is the claim's multi-match hypothesis.
Stated for the USB and the NET unregister. -/
theorem C10_unregister_removes_last_match :
    (∀ (A B : List DevMapping) (m : DevMapping) (c : Nat) (d : UsbDev),
        usbMappingMatches c d m = true →
        (∀ x ∈ B, usbMappingMatches c d x = false) →
        2 ≤ ((A ++ m :: B).filter (usbMappingMatches c d)).length →
        uevent_unregister_usbdevice (A ++ m :: B) c d = (0, A ++ B)) ∧
    (∀ (A B : List NetMapping) (m : NetMapping) (c : Nat) (mac : Bytes),
        netMappingMatches c mac m = true →
        (∀ x ∈ B, netMappingMatches c mac x = false) →
        2 ≤ ((A ++ m :: B).filter (netMappingMatches c mac)).length →
        uevent_unregister_netdev (A ++ m :: B) c mac = (0, A ++ B)) := by
  constructor
  · intro A B m c d hm hB _
    unfold uevent_unregister_usbdevice
    rw [lastMatchIdx_decomp _ A m B hm (fun x hx => by simp [hB x hx])]
    show (0, (A ++ m :: B).eraseIdx A.length) = ((0 : Int), A ++ B)
    rw [eraseIdx_append_middle]
  · intro A B m c mac hm hB _
    unfold uevent_unregister_netdev
    rw [lastMatchIdx_decomp _ A m B hm (fun x hx => by simp [hB x hx])]
    show (0, (A ++ m :: B).eraseIdx A.length) = ((0 : Int), A ++ B)
    rw [eraseIdx_append_middle]

/-- C10 witness: tables with two matching mappings; the second (later)
one is removed, the earlier one survives. -/
theorem C10_unregister_removes_last_match_witness :
    uevent_unregister_usbdevice
        [uevent_container_dev_mapping_new 1 (uevent_usbdev_new 0 7531 2 [97] false),
         uevent_container_dev_mapping_new 1 (uevent_usbdev_new 0 7531 2 [97] false)] 1
        (uevent_usbdev_new 0 7531 2 [97] false)
      = (0, [uevent_container_dev_mapping_new 1 (uevent_usbdev_new 0 7531 2 [97] false)]) ∧
    uevent_unregister_netdev
        [{ container := 1, pnet_cfg := { pnet_name := [], mac_filter := false },
           mac := [82,84,0,18,52,86] },
         { container := 1, pnet_cfg := { pnet_name := [53], mac_filter := true },
           mac := [82,84,0,18,52,86] }] 1 [82,84,0,18,52,86]
      = (0, [{ container := 1, pnet_cfg := { pnet_name := [], mac_filter := false },
               mac := [82,84,0,18,52,86] }]) :=
  ⟨C10_unregister_removes_last_match.1
      [uevent_container_dev_mapping_new 1 (uevent_usbdev_new 0 7531 2 [97] false)] []
      (uevent_container_dev_mapping_new 1 (uevent_usbdev_new 0 7531 2 [97] false)) 1
      (uevent_usbdev_new 0 7531 2 [97] false) (by decide) (by decide) (by decide),
   C10_unregister_removes_last_match.2
      [{ container := 1, pnet_cfg := { pnet_name := [], mac_filter := false },
         mac := [82,84,0,18,52,86] }] []
      { container := 1, pnet_cfg := { pnet_name := [53], mac_filter := true },
        mac := [82,84,0,18,52,86] } 1 [82,84,0,18,52,86]
      (by decide) (by decide) (by decide)⟩

/-- C8: any received message classified as a udev frame (its head
`strncmp`-matches `"libudev"` over `msg_len`) whose magic bytes differ
from FE ED CA FE is dropped by `uevent_handle` with exactly one warning:
both routing-table states come back unchanged and the effect trace
contains no injector fork and no filesystem action.  The handler
returns normally, so the read loop's next callback proceeds as usual. -/
theorem C8_malformed_magic_drops (env : Env) (usbT : List DevMapping) (netifs : List Bytes)
    (msg : Bytes)
    (hpre : strncmpEq msg [108,105,98,117,100,101,118] msg.length = true)
    (hmag : hdrMagicBytes msg ≠ [254,237,202,254]) :
    uevent_handle env usbT netifs msg = (usbT, netifs, [.warn]) := by
  unfold uevent_handle
  by_cases h0 : msg.length = 0
  · rw [if_pos h0]
  · rw [if_neg h0, if_pos hpre, if_pos (by simpa [bne_iff_ne] using hmag)]

/-- C8 witness: a 12-byte frame with prefix `libudev` and magic
DE AD BE EF leaves a nonempty USB table and NIC name list untouched and
warns once. -/
theorem C8_malformed_magic_drops_witness :
    uevent_handle
        { containerState := fun _ => .running, containerPid := fun _ => 7,
          containerUserns := fun _ => false, containerRootdir := fun _ => [],
          isDeviceAllowed := fun _ _ _ => true, fileExists := fun _ => false,
          mkdirOk := true, mknodOk := true, shiftOk := true,
          tokenDetach := fun _ => -1, tokenAttach := fun _ _ => -1,
          serialFile := fun _ => none, synthLookup := fun _ => none,
          containerCount := 1, containerByIndex := fun _ => some 0,
          hostedMode := false, getMacByIfname := fun _ => none,
          c0 := some 0, attachOk := true, renameOk := fun _ _ => true }
        [uevent_container_dev_mapping_new 1 (uevent_usbdev_new 0 7531 2 [97] false)]
        [[101,116,104,48]]
        [108,105,98,117,100,101,118,0,222,173,190,239]
      = ([uevent_container_dev_mapping_new 1 (uevent_usbdev_new 0 7531 2 [97] false)],
         [[101,116,104,48]], [.warn]) :=
  C8_malformed_magic_drops _ _ _ _ (by decide) (by decide)
